import Mathlib

/-!
# Baribhara API gateway: request pipeline

A shallow embedding of the gateway's request pipeline
(`api-gateway-go/internal/gateway/gateway.go`,
`api-gateway/internal/middleware/ratelimit.go`,
`api-gateway/pkg/client/manager.go`) together with the parts of its
environment the pipeline talks to: the shared counter store (Redis), the
handler chain of the web framework (gin) and the reverse proxy of the
standard library.
-/

namespace Baribhara

/-! ## The shared counter store -/

/-- A value held under a key of the store. Redis stores strings; `int n` is
the decimal rendering of `n`, `raw s` the payload `s` as it is. -/
inductive RedisVal
  | int (n : Int)
  | raw (s : String)
  deriving DecidableEq, Repr

/-- One key of the store: its value and, when a time to live is set, the
instant (in seconds) at which the key expires. -/
structure Entry where
  val : RedisVal
  expireAt : Option Nat
  deriving DecidableEq, Repr

/-- The store: an association list from key to entry, first binding wins. -/
abbrev Store := List (String × Entry)

/-- A key with an expiry is visible strictly before that instant. -/
def Entry.live (e : Entry) (now : Nat) : Bool :=
  match e.expireAt with
  | none => true
  | some d => decide (now < d)

/-- The binding of `key`, expired or not. -/
def Store.find : Store → String → Option Entry
  | [], _ => none
  | (k, e) :: rest, key => if k = key then some e else Store.find rest key

/-- The binding of `key` as a client sees it at time `now`. -/
def Store.get? (s : Store) (now : Nat) (key : String) : Option Entry :=
  match s.find key with
  | some e => if e.live now then some e else none
  | none => none

/-- Bind `key` to `e`, replacing the first binding of `key` if there is one. -/
def Store.put : Store → String → Entry → Store
  | [], key, e => [(key, e)]
  | (k, e0) :: rest, key, e =>
    if k = key then (k, e) :: rest else (k, e0) :: Store.put rest key e

/-- Errors of a store command: `Nil` is go-redis's `redis.Nil` (key absent),
`other` any other failure (store unreachable, wrong type, overflow). -/
inductive RedisErr
  | Nil
  | other
  deriving DecidableEq, Repr

/-- How the pipelined `INCR` + `EXPIRE` of one request can go wrong on the
wire: not at all, before anything reached the store, after the increment
only, or after both commands were applied but the reply was lost. -/
inductive ExecFault
  | none
  | notSent
  | incrOnly
  | replyLost
  deriving DecidableEq, Repr

def minInt64 : Int := -(2 ^ 63)

def maxInt64 : Int := 2 ^ 63 - 1

/-- Decimal rendering of an integer, as `%d` prints it. -/
def fmtInt (n : Int) : String :=
  if n < 0 then "-" ++ Nat.repr n.natAbs else Nat.repr n.natAbs

/-- The value of a decimal digit. -/
def digitVal (ch : Char) : Option Nat :=
  if '0' ≤ ch ∧ ch ≤ '9' then some (ch.toNat - 48) else none

/-- The number a run of decimal digits spells after the digits read so far;
`none` when a character is not a digit. -/
def digitsValue : List Char → Nat → Option Nat
  | [], acc => some acc
  | ch :: rest, acc =>
    match digitVal ch with
    | some d => digitsValue rest (acc * 10 + d)
    | none => none

/-- The integer Go's `strconv.Atoi` reads from a string, before the range
check: an optional sign and at least one digit, nothing else. -/
def parseGoInt (s : String) : Option Int :=
  match s.data with
  | [] => none
  | '+' :: digits => if digits = [] then none else (digitsValue digits 0).map Int.ofNat
  | '-' :: digits =>
    if digits = [] then none else (digitsValue digits 0).map (fun n => -(Int.ofNat n))
  | digits => (digitsValue digits 0).map Int.ofNat

/-- The integer Redis reads from a string for `INCR`: only the canonical
rendering of a 64-bit integer counts (no plus sign, no leading zeros). -/
def parseRedisInt (s : String) : Option Int :=
  match parseGoInt s with
  | some n => if fmtInt n = s ∧ minInt64 ≤ n ∧ n ≤ maxInt64 then some n else none
  | none => none

/-- Outcome of `strconv.Atoi` on a stored value: Go's `int` is 64 bits wide, a
value out of range or not a number is an error and the result is `0`. A
payload that spells an integer, such as `+100` or `0100`, is read as that
integer. -/
def atoi : RedisVal → Int × Option RedisErr
  | .int n => if minInt64 ≤ n ∧ n ≤ maxInt64 then (n, none) else (0, some .other)
  | .raw s =>
    match parseGoInt s with
    | some n => if minInt64 ≤ n ∧ n ≤ maxInt64 then (n, none) else (0, some .other)
    | none => (0, some .other)

/-- Model of `rdb.Get(ctx, key).Int()`: the count and the error, as Go
returns them. `unreachable` stands for a store that does not answer. -/
def getInt (unreachable : Bool) (s : Store) (now : Nat) (key : String) :
    Int × Option RedisErr :=
  if unreachable then (0, some .other)
  else
    match s.get? now key with
    | none => (0, some .Nil)
    | some e => atoi e.val

/-- Model of the `INCR key` command at time `now`: an absent or expired key
counts from zero and the new key has no time to live; a live counter keeps
its time to live; a payload that is not the canonical rendering of an
integer is an error. -/
def incr (s : Store) (now : Nat) (key : String) : Store × Option RedisErr :=
  match s.get? now key with
  | none => (s.put key { val := .int 1, expireAt := none }, none)
  | some e =>
    match e.val with
    | .int n =>
      if minInt64 ≤ n ∧ n < maxInt64 then
        (s.put key { val := .int (n + 1), expireAt := e.expireAt }, none)
      else (s, some .other)
    | .raw payload =>
      match parseRedisInt payload with
      | some n =>
        if n < maxInt64 then
          (s.put key { val := .int (n + 1), expireAt := e.expireAt }, none)
        else (s, some .other)
      | none => (s, some .other)

/-- Model of the `EXPIRE key ttl` command at time `now`: a live key expires
`ttl` seconds from now, an absent key is left absent. -/
def expire (s : Store) (now : Nat) (key : String) (ttl : Nat) : Store :=
  match s.get? now key with
  | none => s
  | some e => s.put key { val := e.val, expireAt := some (now + ttl) }

/-- Model of `pipe.Incr; pipe.Expire; pipe.Exec`: the commands run in order,
each on its own (a pipeline is not a transaction), and `Exec` reports the
first error. -/
def execIncrExpire (fault : ExecFault) (s : Store) (now : Nat) (key : String)
    (ttl : Nat) : Store × Option RedisErr :=
  match fault with
  | .notSent => (s, some .other)
  | .incrOnly => ((incr s now key).1, some .other)
  | .replyLost => (expire (incr s now key).1 now key ttl, some .other)
  | .none =>
    let r := incr s now key
    (expire r.1 now key ttl, r.2)

/-! ## Requests, responses and the handler chain -/

/-- The functions that SetupRoutes and main put into handler chains, by
their names in the source. -/
inductive Handler
  | Recovery | Logger | CORS | RateLimit | Metrics | JWTAuth | AdminOnly
  | Health
  | handleAuthRegister | handleAuthLogin | handleAuthRefresh
  | handleAuthProfile | handleAuthUpdateProfile | handleAuthLogout
  | handleGetUsers | handleGetUser | handleUpdateUser | handleDeleteUser
  | handleGetProperties | handleSearchProperties | handleGetProperty
  | handleCreateProperty | handleUpdateProperty | handleDeleteProperty
  | handleGetTenants | handleSearchTenants | handleGetTenant
  | handleCreateTenant | handleUpdateTenant | handleDeleteTenant
  | handleGetCaretakers | handleSearchCaretakers | handleGetCaretaker
  | handleCreateCaretaker | handleUpdateCaretaker | handleDeleteCaretaker
  | handleGetInvoices | handleGetInvoice | handleCreateInvoice
  | handleUpdateInvoice | handlePayInvoice
  | handleGetNotifications | handleSendNotification | handleMarkNotificationRead
  | handleGetPropertyReport | handleGetTenantReport | handleGetInvoiceReport
  | handleGenerateReport
  | handleAdminStats | handleAdminUsers | handleAdminUpdateUserStatus
  | promhttpHandler | mainHealth
  deriving DecidableEq, Repr

/-- A JSON scalar of a response body. -/
inductive JVal
  | str (s : String)
  | num (n : Int)
  deriving DecidableEq, Repr

/-- A response body: a JSON object (`gin.H`, keys in encoding order) or
plain bytes. -/
inductive Body
  | json (h : List (String × JVal))
  | text (s : String)
  deriving DecidableEq, Repr

/-- Header fields (`http.Header`): name to list of values. -/
abbrev Header := List (String × List String)

/-- The inbound request as the handlers read it. `clientIP` is what
`c.ClientIP()` returns for it. -/
structure Request where
  method : String
  path : String
  header : Header
  clientIP : String
  deriving DecidableEq, Repr

/-- The request the reverse proxy hands to the transport. -/
structure OutRequest where
  method : String
  scheme : String
  urlHost : String
  urlPath : String
  host : String
  header : Header
  deriving DecidableEq, Repr

/-- What a request leaves behind, in order: handlers entered, commands sent
to the store, and calls into the forwarder. -/
inductive Event
  | handler (h : Handler)
  | redisGet (key : String)
  | redisIncr (key : String)
  | redisExpire (key : String) (ttl : Nat)
  | proxyToService (serviceName path : String)
  | proxyRequest (serviceName path : String)
  | roundTrip (out : OutRequest)
  deriving DecidableEq, Repr

/-- The per-request context (`gin.Context`) together with the store the
request acts on. `written` lists the responses written so far, `aborted` is
set by `c.Abort()`, `finished` once the chain has run to its end. -/
structure Context where
  request : Request
  params : List (String × String)
  keys : List (String × String)
  written : List (Nat × Body)
  aborted : Bool
  finished : Bool
  store : Store
  trace : List Event
  deriving DecidableEq, Repr

/-- The identity a valid token carries. -/
structure Claims where
  sub : String
  email : String
  role : String
  deriving DecidableEq, Repr

/-- What the surroundings decide for one request: the clock, whether the
store answers reads, how the increment pipeline fares, which tokens verify
under which secret, which target URLs parse (to scheme and host), and what
the backend answers (nothing on a transport error). -/
structure Env where
  now : Nat
  getFails : Bool
  exec : ExecFault
  verifyToken : String → String → Option Claims
  urlParse : String → Option (String × String)
  backend : OutRequest → Option (Nat × Body)

/-- A handler receives `next`, the effect of calling `c.Next()`, and the
context. -/
abbrev HandlerFunc := (Context → Context) → Context → Context

/-- The context a request starts with. -/
def newContext (req : Request) (store : Store) : Context :=
  { request := req, params := [], keys := [], written := [], aborted := false,
    finished := false, store := store, trace := [] }

/-- Model of `c.JSON(code, obj)`. -/
def Context.JSON (c : Context) (code : Nat) (obj : List (String × JVal)) : Context :=
  { c with written := c.written ++ [(code, Body.json obj)] }

/-- Model of `c.Abort()`. -/
def Context.Abort (c : Context) : Context :=
  { c with aborted := true }

/-- Record an event of the request. -/
def Context.log (c : Context) (e : Event) : Context :=
  { c with trace := c.trace ++ [e] }

/-- Model of `c.Param(name)`: the value of the path parameter, or `""`. -/
def Context.Param (c : Context) (name : String) : String :=
  (c.params.lookup name).getD ""

/-- Model of `c.Set(key, value)`. -/
def Context.Set (c : Context) (key value : String) : Context :=
  { c with keys := (key, value) :: c.keys }

/-- Model of `c.Get(key)`. -/
def Context.Get (c : Context) (key : String) : Option String :=
  c.keys.lookup key

/-- Model of gin's `c.Next()` loop over the handlers that remain: each
handler runs in turn; a handler that calls `c.Next()` itself runs the rest
of the chain inside that call, and nothing runs after `c.Abort()`. -/
def runChain : List HandlerFunc → Context → Context
  | [] => fun c => { c with finished := true }
  | h :: rest => fun c =>
    let c1 := h (fun d => if d.aborted then d else runChain rest d) c
    if c1.aborted || c1.finished then c1 else runChain rest c1

/-! ## Header fields -/

def asciiUpper (ch : Char) : Char :=
  if 'a' ≤ ch ∧ ch ≤ 'z' then Char.ofNat (ch.toNat - 32) else ch

def asciiLower (ch : Char) : Char :=
  if 'A' ≤ ch ∧ ch ≤ 'Z' then Char.ofNat (ch.toNat + 32) else ch

/-- The characters of an HTTP token. -/
def isTokenChar (ch : Char) : Bool :=
  ch.isAlphanum || "!#$%&*+-.^_|~".data.contains ch || ch = (Char.ofNat 39) || ch = (Char.ofNat 96)

def canonicalChars : Bool → List Char → List Char
  | _, [] => []
  | up, ch :: rest =>
    (if up then asciiUpper ch else asciiLower ch) :: canonicalChars (ch = '-') rest

/-- Model of `textproto.CanonicalMIMEHeaderKey`: first letter and letters
after a hyphen in upper case, the rest in lower case; a name with a
character outside the token characters is returned as it is. -/
def canonicalMIMEHeaderKey (key : String) : String :=
  if key.data.all isTokenChar then String.mk (canonicalChars true key.data) else key

/-- The values stored under exactly the name `key`. -/
def Header.values : Header → String → List String
  | [], _ => []
  | (k, vs) :: rest, key => if k = key then vs else Header.values rest key

/-- Append `value` to the values stored under exactly the name `key`. -/
def Header.addValue : Header → String → String → Header
  | [], key, value => [(key, [value])]
  | (k, vs) :: rest, key, value =>
    if k = key then (k, vs ++ [value]) :: rest else (k, vs) :: Header.addValue rest key value

/-- Model of `Header.Add`. -/
def Header.Add (h : Header) (key value : String) : Header :=
  h.addValue (canonicalMIMEHeaderKey key) value

/-- Model of `Header.Get`: the first value under the canonical name, or `""`. -/
def Header.Get (h : Header) (key : String) : String :=
  ((h.values (canonicalMIMEHeaderKey key)).head?).getD ""

/-- Model of `c.GetHeader(key)`. -/
def Context.GetHeader (c : Context) (key : String) : String :=
  c.request.header.Get key

/-! ## Rate limiter (`middleware/ratelimit.go`) -/

/-- The counter key of a request: `fmt.Sprintf("rate_limit:%s", clientIP)`. -/
def rateLimitKey (clientIP : String) : String :=
  "rate_limit:" ++ clientIP

/-- The body of the rejection. -/
def rateLimitBody : List (String × JVal) :=
  [("error", .str "Rate limit exceeded"), ("retry_after", .num 60)]

/-- Translation of `RateLimit`. -/
def RateLimit (env : Env) : HandlerFunc := fun next c =>
  let clientIP := c.request.clientIP
  let key := rateLimitKey clientIP
  -- Get current count
  let c := c.log (.redisGet key)
  let r := getInt env.getFails c.store env.now key
  let count := r.1
  let err := r.2
  if err ≠ none ∧ err ≠ some .Nil then
    next c
  -- Check if limit exceeded (100 requests per minute)
  else if count ≥ 100 then
    (c.JSON 429 rateLimitBody).Abort
  else
    -- Increment counter
    let c := (c.log (.redisIncr key)).log (.redisExpire key 60)
    let p := execIncrExpire env.exec c.store env.now key 60
    let c := { c with store := p.1 }
    if p.2 ≠ none then
      next c
    else
      next c

/-! ## Middleware that is not among the sources -/

/-- Model of `gin.Recovery()`: runs the rest of the chain (the embedding is
total, so there is no panic to recover from). -/
def Recovery : HandlerFunc := fun next c => next c

/-- Modelled from the spec: `middleware.Logger` is not among the sources;
section 2 has every request flow through structured logging on its way to
the rate limiter. -/
def Logger : HandlerFunc := fun next c => next c

/-- Modelled from the spec: `middleware.CORS` is not among the sources;
section 2 has every request flow through CORS handling on its way to the
rate limiter. -/
def CORS : HandlerFunc := fun next c => next c

/-- Modelled from the spec: `middleware.Metrics` is not among the sources;
it is an external collaborator that observes the request and passes it on. -/
def Metrics : HandlerFunc := fun next c => next c

/-- The token of a header value of the form `Bearer <token>`. -/
def bearerToken (authHeader : String) : Option String :=
  match authHeader.data with
  | 'B' :: 'e' :: 'a' :: 'r' :: 'e' :: 'r' :: ' ' :: token => some (String.mk token)
  | _ => none

/-- Modelled from the spec: `middleware.JWTAuth` is not among the sources
(its test is). Section 4.2: a missing header, a header not of the form
`Bearer <token>` and a token that does not validate each end the request
with 401 and their message; a valid token attaches the identity of its
claims to the context and passes the request on. -/
def JWTAuth (env : Env) (secret : String) : HandlerFunc := fun next c =>
  let authHeader := c.GetHeader "Authorization"
  if authHeader = "" then
    (c.JSON 401 [("error", .str "Authorization header required")]).Abort
  else
    match bearerToken authHeader with
    | none => (c.JSON 401 [("error", .str "Bearer token required")]).Abort
    | some token =>
      match env.verifyToken secret token with
      | none => (c.JSON 401 [("error", .str "Invalid token")]).Abort
      | some claims =>
        next (((c.Set "user_id" claims.sub).Set "user_email" claims.email).Set
          "user_role" claims.role)

/-- Modelled from the spec: `middleware.AdminOnly` is not among the sources
(its test is). Section 4.3: a role other than `admin`, also when no
identity is attached, ends the request with 403; otherwise the request
passes through unchanged. -/
def AdminOnly : HandlerFunc := fun next c =>
  if c.Get "user_role" = some "admin" then
    next c
  else
    (c.JSON 403 [("error", .str "Admin access required")]).Abort

/-! ## Configuration (`internal/config/config.go`) -/

structure ServiceConfig where
  Host : String
  Port : Int
  GRPCPort : Int
  deriving DecidableEq, Repr

structure ServicesConfig where
  AuthService : ServiceConfig
  UserService : ServiceConfig
  PropertyService : ServiceConfig
  TenantService : ServiceConfig
  InvoiceService : ServiceConfig
  NotificationService : ServiceConfig
  ReportService : ServiceConfig
  AdminService : ServiceConfig
  CaretakerService : ServiceConfig
  deriving DecidableEq, Repr

structure JWTConfig where
  Secret : String
  deriving DecidableEq, Repr

structure Config where
  Services : ServicesConfig
  JWT : JWTConfig
  deriving DecidableEq, Repr

/-! ## Service clients (`pkg/client/manager.go`) -/

/-- An `http.Client`: its timeout in seconds. -/
structure HTTPClient where
  Timeout : Nat
  deriving DecidableEq, Repr

structure Manager where
  clients : List (String × HTTPClient)
  config : Config
  deriving DecidableEq, Repr

structure ServiceClient where
  client : HTTPClient
  config : ServiceConfig
  deriving DecidableEq, Repr

/-- Translation of `NewManager`: one client per entry of the `services` map. -/
def NewManager (cfg : Config) : Manager :=
  let services : List (String × ServiceConfig) := [
    ("auth-service", cfg.Services.AuthService),
    ("user-service", cfg.Services.UserService),
    ("property-service", cfg.Services.PropertyService),
    ("tenant-service", cfg.Services.TenantService),
    ("invoice-service", cfg.Services.InvoiceService),
    ("notification-service", cfg.Services.NotificationService),
    ("report-service", cfg.Services.ReportService),
    ("admin-service", cfg.Services.AdminService),
    ("caretaker-service", cfg.Services.CaretakerService)]
  { clients := services.map (fun s => (s.1, { Timeout := 30 })), config := cfg }

/-- Translation of `Manager.getServiceConfig`. -/
def Manager.getServiceConfig (m : Manager) (serviceName : String) : Option ServiceConfig :=
  if serviceName = "auth-service" then some m.config.Services.AuthService
  else if serviceName = "user-service" then some m.config.Services.UserService
  else if serviceName = "property-service" then some m.config.Services.PropertyService
  else if serviceName = "tenant-service" then some m.config.Services.TenantService
  else if serviceName = "invoice-service" then some m.config.Services.InvoiceService
  else if serviceName = "notification-service" then some m.config.Services.NotificationService
  else if serviceName = "report-service" then some m.config.Services.ReportService
  else if serviceName = "admin-service" then some m.config.Services.AdminService
  else if serviceName = "caretaker-service" then some m.config.Services.CaretakerService
  else none

/-- Translation of `Manager.GetClient`; `none` is the nil client. -/
def Manager.GetClient (m : Manager) (serviceName : String) : Option ServiceClient :=
  match m.clients.lookup serviceName with
  | none => none
  | some client =>
    match m.getServiceConfig serviceName with
    | none => none
    | some serviceConfig => some { client := client, config := serviceConfig }

/-- The `Director` that `ProxyRequest` installs: scheme, host and path of
the outbound request are set from the target, then every value of every
inbound header field is added to the outbound header. -/
def Director (targetScheme targetHost path : String) (inbound : Header)
    (req : OutRequest) : OutRequest :=
  let req := { req with scheme := targetScheme, urlHost := targetHost, urlPath := path,
                        host := targetHost }
  -- Copy headers
  inbound.foldl
    (fun r kv => kv.2.foldl (fun r value => { r with header := r.header.Add kv.1 value }) r)
    req

/-- The outbound request as `ReverseProxy.ServeHTTP` makes it before the
director runs: a clone of the inbound request, header included. -/
def cloneRequest (req : Request) : OutRequest :=
  { method := req.method, scheme := "", urlHost := "", urlPath := req.path, host := "",
    header := req.header }

/-- The outbound request of `ProxyRequest`: the proxy's clone of the inbound
request after the director has run. -/
def outboundRequest (targetScheme targetHost path : String) (req : Request) : OutRequest :=
  Director targetScheme targetHost path req.header (cloneRequest req)

/-- Translation of `ServiceClient.ProxyRequest`. -/
def ServiceClient.ProxyRequest (sc : ServiceClient) (env : Env) (serviceName : String)
    (c : Context) (path : String) : Context :=
  let c := c.log (.proxyRequest serviceName path)
  -- Build target URL
  let targetURL := "http://" ++ sc.config.Host ++ ":" ++ fmtInt sc.config.Port ++ path
  match env.urlParse targetURL with
  | none => c.JSON 500 [("error", .str "Internal server error")]
  | some target =>
    let out := outboundRequest target.1 target.2 path c.request
    let c := c.log (.roundTrip out)
    -- Serve the request
    match env.backend out with
    | none => c.JSON 502 [("error", .str "Service unavailable")]
    | some resp => { c with written := c.written ++ [resp] }

/-! ## Router (gin) -/

/-- Split at every slash; the pieces of `/a/b` are the empty piece, `a`
and `b`. -/
def splitOnSlash : List Char → List (List Char)
  | [] => [[]]
  | ch :: rest =>
    match splitOnSlash rest with
    | [] => [[]]
    | seg :: segs => if ch = '/' then [] :: seg :: segs else (ch :: seg) :: segs

def segments (p : String) : List String :=
  (splitOnSlash p.data).map String.mk

/-- The elements that survive `path.Clean`, on a stack with the last one
first. -/
def cleanSegs (rooted : Bool) : List String → List String → List String
  | stack, [] => stack.reverse
  | stack, seg :: rest =>
    if seg = "" ∨ seg = "." then cleanSegs rooted stack rest
    else if seg = ".." then
      match stack with
      | [] => if rooted then cleanSegs rooted [] rest else cleanSegs rooted [".."] rest
      | top :: below =>
        if top = ".." then cleanSegs rooted (".." :: stack) rest
        else cleanSegs rooted below rest
    else cleanSegs rooted (seg :: stack) rest

/-- Model of Go's `path.Clean`. -/
def pathClean (p : String) : String :=
  let rooted := p.data.head? = some '/'
  let body := "/".intercalate (cleanSegs rooted [] (segments p))
  if rooted then "/" ++ body else if body = "" then "." else body

/-- Model of Go's `path.Join` for two elements. -/
def pathJoin (a b : String) : String :=
  if a = "" ∧ b = "" then ""
  else if a = "" then pathClean b
  else if b = "" then pathClean a
  else pathClean (a ++ "/" ++ b)

/-- Model of gin's `joinPaths`. -/
def joinPaths (absolutePath relativePath : String) : String :=
  if relativePath = "" then absolutePath
  else
    let finalPath := pathJoin absolutePath relativePath
    if relativePath.data.getLast? = some '/' ∧ finalPath.data.getLast? ≠ some '/' then
      finalPath ++ "/"
    else finalPath

/-- One registered route: method, full path pattern and handler chain. -/
structure RouteInfo where
  method : String
  path : String
  handlers : List Handler
  deriving DecidableEq, Repr

structure RouterGroup where
  basePath : String
  Handlers : List Handler
  deriving DecidableEq, Repr

/-- The engine: its root group, the routes in registration order, the chain
run when no route matches, and the panic of a registration that gin
refuses. -/
structure Engine where
  RouterGroup : RouterGroup
  routes : List RouteInfo
  allNoRoute : List Handler
  panicked : Option String
  deriving DecidableEq, Repr

/-- Model of `gin.New()`. -/
def Engine.New : Engine :=
  { RouterGroup := { basePath := "/", Handlers := [] }, routes := [], allNoRoute := [],
    panicked := none }

/-- Model of `engine.Use`: the middleware joins the root group and the chain
for unmatched requests. -/
def Engine.Use (e : Engine) (middleware : Handler) : Engine :=
  let handlers := e.RouterGroup.Handlers ++ [middleware]
  { e with RouterGroup := { e.RouterGroup with Handlers := handlers }, allNoRoute := handlers }

/-- Model of `group.Use`. -/
def RouterGroup.Use (g : RouterGroup) (middleware : Handler) : RouterGroup :=
  { g with Handlers := g.Handlers ++ [middleware] }

/-- Model of `group.Group`: the new group copies the chain of its parent. -/
def RouterGroup.Group (g : RouterGroup) (relativePath : String) : RouterGroup :=
  { basePath := joinPaths g.basePath relativePath, Handlers := g.Handlers }

/-- Model of `group.handle`: the route is registered under the joined path
with the chain of the group followed by the handler; registering a method
and path a second time panics. -/
def RouterGroup.handle (g : RouterGroup) (httpMethod relativePath : String) (h : Handler)
    (e : Engine) : Engine :=
  let absolutePath := joinPaths g.basePath relativePath
  match e.panicked with
  | some _ => e
  | none =>
    if e.routes.any (fun r => r.method = httpMethod ∧ r.path = absolutePath) then
      { e with panicked := some absolutePath }
    else
      { e with routes := e.routes ++
          [{ method := httpMethod, path := absolutePath, handlers := g.Handlers ++ [h] }] }

def RouterGroup.GET (g : RouterGroup) (relativePath : String) (h : Handler) (e : Engine) :
    Engine := g.handle "GET" relativePath h e

def RouterGroup.POST (g : RouterGroup) (relativePath : String) (h : Handler) (e : Engine) :
    Engine := g.handle "POST" relativePath h e

def RouterGroup.PUT (g : RouterGroup) (relativePath : String) (h : Handler) (e : Engine) :
    Engine := g.handle "PUT" relativePath h e

def RouterGroup.DELETE (g : RouterGroup) (relativePath : String) (h : Handler) (e : Engine) :
    Engine := g.handle "DELETE" relativePath h e

/-- A segment of a path pattern. -/
inductive Seg
  | static (s : String)
  | param (name : String)
  deriving DecidableEq, Repr

def parseSeg (s : String) : Seg :=
  match s.data with
  | ':' :: name => .param (String.mk name)
  | _ => .static s

def parsePattern (p : String) : List Seg :=
  (segments p).map parseSeg

/-- A pattern matches a path segment by segment: a static segment matches
itself, a parameter any non-empty segment, which it binds. -/
def matchPattern : List Seg → List String → Option (List (String × String))
  | [], [] => some []
  | .static s :: ps, x :: xs => if s = x then matchPattern ps xs else none
  | .param name :: ps, x :: xs =>
    if x = "" then none else (matchPattern ps xs).map (fun bound => (name, x) :: bound)
  | _, _ => none

/-- Whether the lookup reaches pattern `p` before pattern `q`: at the first
segment where one is static and the other a parameter, `p` is the static
one. -/
def staticFirst : List Seg → List Seg → Bool
  | .static _ :: _, .param _ :: _ => true
  | .param _ :: _, .static _ :: _ => false
  | _ :: ps, _ :: qs => staticFirst ps qs
  | _, _ => false

/-- Keep the candidate the lookup reaches first; a later registration
replaces an earlier one only if it is strictly preferred. -/
def pickRoute (best : Option (RouteInfo × List (String × String)))
    (cand : RouteInfo × List (String × String)) :
    Option (RouteInfo × List (String × String)) :=
  match best with
  | none => some cand
  | some b =>
    if staticFirst (parsePattern cand.1.path) (parsePattern b.1.path) then some cand
    else some b

/-- The routes of a method whose pattern matches the segments of a path,
with the parameters each binds, in registration order. -/
def matchingRoutes (routes : List RouteInfo) (httpMethod : String) (segs : List String) :
    List (RouteInfo × List (String × String)) :=
  routes.filterMap (fun r =>
    if r.method = httpMethod then
      (matchPattern (parsePattern r.path) segs).map (fun ps => (r, ps))
    else none)

/-- Model of gin's route lookup (`getValue`): static children of a node are
tried before its parameter child. -/
def Engine.getValue (e : Engine) (httpMethod path : String) :
    Option (RouteInfo × List (String × String)) :=
  (matchingRoutes e.routes httpMethod (segments path)).foldl pickRoute none

/-- The path with its trailing slash removed, or with one added when it has
none: the path gin's `redirectTrailingSlash` sends the client to. -/
def toggleTrailingSlash (path : String) : String :=
  if path.data.getLast? = some '/' then String.mk path.data.dropLast else path ++ "/"

/-- Model of the `tsr` flag of gin's lookup, by its documented meaning: a
handler exists for the path with (without) the trailing slash. -/
def Engine.tsr (e : Engine) (httpMethod path : String) : Bool :=
  (e.getValue httpMethod (toggleTrailingSlash path)).isSome

/-- Whether the router answers the request itself with a trailing-slash
redirect (`RedirectTrailingSlash` is on after `gin.New()`): no route of the
method matches, the method is not CONNECT, the path is not `/`, and the
lookup recommends the redirect. -/
def Engine.redirectsTrailingSlash (e : Engine) (httpMethod path : String) : Bool :=
  (e.getValue httpMethod path).isNone && httpMethod != "CONNECT" && path != "/" &&
    e.tsr httpMethod path

/-- The status of gin's `redirectRequest`: 301 for GET, 307 otherwise. -/
def redirectCode (httpMethod : String) : Nat :=
  if httpMethod = "GET" then 301 else 307

/-- Model of `engine.ServeHTTP` (`handleHTTPRequest`): the chain of the
matching route runs; when no route matches and the lookup recommends it, the
router redirects to the path with the trailing slash toggled, before any
handler runs (the body stands for the Location; the `X-Forwarded-Prefix`
header is left out); otherwise the chain for unmatched requests runs,
followed by the default 404 if nothing was written. -/
def Engine.ServeHTTP (e : Engine) (impl : Handler → HandlerFunc) (req : Request)
    (store : Store) : Context :=
  let c := newContext req store
  match e.getValue req.method req.path with
  | some (r, ps) => runChain (r.handlers.map impl) { c with params := ps }
  | none =>
    if e.redirectsTrailingSlash req.method req.path then
      { c with written := [(redirectCode req.method, Body.text (toggleTrailingSlash req.path))] }
    else
      let c := runChain (e.allNoRoute.map impl) c
      if c.written = [] then { c with written := [(404, Body.text "404 page not found")] }
      else c

/-! ## Gateway (`internal/gateway/gateway.go`, `cmd/main.go`) -/

structure Gateway where
  config : Config
  clients : Manager
  deriving DecidableEq, Repr

/-- Translation of `NewGateway`. -/
def NewGateway (cfg : Config) : Gateway :=
  { config := cfg, clients := NewManager cfg }

/-- Translation of `Gateway.SetupRoutes`. -/
def SetupRoutes : Engine :=
  let router := Engine.New
  -- Global middleware
  let router := router.Use .Recovery
  let router := router.Use .Logger
  let router := router.Use .CORS
  let router := router.Use .RateLimit
  let router := router.Use .Metrics
  -- Health check
  let router := router.RouterGroup.GET "/health" .Health router
  -- API v1 routes
  let v1 := router.RouterGroup.Group "/api/v1"
  -- Public routes (no authentication required)
  let public := v1.Group "/"
  let router := public.POST "/auth/register" .handleAuthRegister router
  let router := public.POST "/auth/login" .handleAuthLogin router
  let router := public.POST "/auth/refresh" .handleAuthRefresh router
  -- Protected routes (authentication required)
  let protected_ := v1.Group "/"
  let protected_ := protected_.Use .JWTAuth
  -- Auth routes
  let auth := protected_.Group "/auth"
  let router := auth.GET "/profile" .handleAuthProfile router
  let router := auth.PUT "/profile" .handleAuthUpdateProfile router
  let router := auth.POST "/logout" .handleAuthLogout router
  -- User routes
  let users := protected_.Group "/users"
  let router := users.GET "" .handleGetUsers router
  let router := users.GET "/:id" .handleGetUser router
  let router := users.PUT "/:id" .handleUpdateUser router
  let router := users.DELETE "/:id" .handleDeleteUser router
  -- Property routes
  let properties := protected_.Group "/properties"
  let router := properties.GET "" .handleGetProperties router
  let router := properties.GET "/search" .handleSearchProperties router
  let router := properties.GET "/:id" .handleGetProperty router
  let router := properties.POST "" .handleCreateProperty router
  let router := properties.PUT "/:id" .handleUpdateProperty router
  let router := properties.DELETE "/:id" .handleDeleteProperty router
  -- Tenant routes
  let tenants := protected_.Group "/tenants"
  let router := tenants.GET "" .handleGetTenants router
  let router := tenants.GET "/search" .handleSearchTenants router
  let router := tenants.GET "/:id" .handleGetTenant router
  let router := tenants.POST "" .handleCreateTenant router
  let router := tenants.PUT "/:id" .handleUpdateTenant router
  let router := tenants.DELETE "/:id" .handleDeleteTenant router
  -- Caretaker routes
  let caretakers := protected_.Group "/caretakers"
  let router := caretakers.GET "" .handleGetCaretakers router
  let router := caretakers.GET "/search" .handleSearchCaretakers router
  let router := caretakers.GET "/:id" .handleGetCaretaker router
  let router := caretakers.POST "" .handleCreateCaretaker router
  let router := caretakers.PUT "/:id" .handleUpdateCaretaker router
  let router := caretakers.DELETE "/:id" .handleDeleteCaretaker router
  -- Invoice routes
  let invoices := protected_.Group "/invoices"
  let router := invoices.GET "" .handleGetInvoices router
  let router := invoices.GET "/:id" .handleGetInvoice router
  let router := invoices.POST "" .handleCreateInvoice router
  let router := invoices.PUT "/:id" .handleUpdateInvoice router
  let router := invoices.POST "/:id/pay" .handlePayInvoice router
  -- Notification routes
  let notifications := protected_.Group "/notifications"
  let router := notifications.GET "" .handleGetNotifications router
  let router := notifications.POST "" .handleSendNotification router
  let router := notifications.PUT "/:id/read" .handleMarkNotificationRead router
  -- Report routes
  let reports := protected_.Group "/reports"
  let router := reports.GET "/properties" .handleGetPropertyReport router
  let router := reports.GET "/tenants" .handleGetTenantReport router
  let router := reports.GET "/invoices" .handleGetInvoiceReport router
  let router := reports.POST "/generate" .handleGenerateReport router
  -- Admin routes
  let admin := protected_.Group "/admin"
  let admin := admin.Use .AdminOnly
  let router := admin.GET "/stats" .handleAdminStats router
  let router := admin.GET "/users" .handleAdminUsers router
  let router := admin.PUT "/users/:id/status" .handleAdminUpdateUserStatus router
  router

/-- The registrations `main` adds to the router that `SetupRoutes` returns. -/
def mainRouter : Engine :=
  let router := SetupRoutes
  -- Add Prometheus metrics endpoint
  let router := router.RouterGroup.GET "/metrics" .promhttpHandler router
  -- Health check endpoint
  let router := router.RouterGroup.GET "/health" .mainHealth router
  router

/-- Translation of `Gateway.proxyToService`. -/
def Gateway.proxyToService (g : Gateway) (env : Env) (c : Context)
    (serviceName path : String) : Context :=
  let c := c.log (.proxyToService serviceName path)
  match g.clients.GetClient serviceName with
  | none => c.JSON 500 [("error", .str "Service unavailable")]
  | some client =>
    -- Forward the request to the microservice
    client.ProxyRequest env serviceName c path

/-- The body of the health check; the number under `timestamp` stands for
the RFC 3339 rendering of the clock reading. -/
def healthBody (now : Nat) : List (String × JVal) :=
  [("service", .str "api-gateway-go"), ("status", .str "ok"), ("timestamp", .num now),
   ("version", .str "1.0.0")]

/-- The logical service and target path with which a route handler calls
`proxyToService`, given `param`, the lookup `c.Param` of its context; `none`
for the functions that do not proxy. -/
def Handler.target (param : String → String) : Handler → Option (String × String)
  | .handleAuthRegister => some ("auth-service", "/api/v1/auth/register")
  | .handleAuthLogin => some ("auth-service", "/api/v1/auth/login")
  | .handleAuthRefresh => some ("auth-service", "/api/v1/auth/refresh")
  | .handleAuthProfile => some ("auth-service", "/api/v1/auth/profile")
  | .handleAuthUpdateProfile => some ("auth-service", "/api/v1/auth/profile")
  | .handleAuthLogout => some ("auth-service", "/api/v1/auth/logout")
  | .handleGetUsers => some ("user-service", "/api/v1/users")
  | .handleGetUser => some ("user-service", "/api/v1/users/" ++ param "id")
  | .handleUpdateUser => some ("user-service", "/api/v1/users/" ++ param "id")
  | .handleDeleteUser => some ("user-service", "/api/v1/users/" ++ param "id")
  | .handleGetProperties => some ("property-service", "/api/v1/properties")
  | .handleSearchProperties => some ("property-service", "/api/v1/properties/search")
  | .handleGetProperty => some ("property-service", "/api/v1/properties/" ++ param "id")
  | .handleCreateProperty => some ("property-service", "/api/v1/properties")
  | .handleUpdateProperty => some ("property-service", "/api/v1/properties/" ++ param "id")
  | .handleDeleteProperty => some ("property-service", "/api/v1/properties/" ++ param "id")
  | .handleGetTenants => some ("tenant-service", "/api/v1/tenants")
  | .handleSearchTenants => some ("tenant-service", "/api/v1/tenants/search")
  | .handleGetTenant => some ("tenant-service", "/api/v1/tenants/" ++ param "id")
  | .handleCreateTenant => some ("tenant-service", "/api/v1/tenants")
  | .handleUpdateTenant => some ("tenant-service", "/api/v1/tenants/" ++ param "id")
  | .handleDeleteTenant => some ("tenant-service", "/api/v1/tenants/" ++ param "id")
  | .handleGetCaretakers => some ("caretaker-service", "/api/v1/caretakers")
  | .handleSearchCaretakers => some ("caretaker-service", "/api/v1/caretakers/search")
  | .handleGetCaretaker => some ("caretaker-service", "/api/v1/caretakers/" ++ param "id")
  | .handleCreateCaretaker => some ("caretaker-service", "/api/v1/caretakers")
  | .handleUpdateCaretaker => some ("caretaker-service", "/api/v1/caretakers/" ++ param "id")
  | .handleDeleteCaretaker => some ("caretaker-service", "/api/v1/caretakers/" ++ param "id")
  | .handleGetInvoices => some ("invoice-service", "/api/v1/invoices")
  | .handleGetInvoice => some ("invoice-service", "/api/v1/invoices/" ++ param "id")
  | .handleCreateInvoice => some ("invoice-service", "/api/v1/invoices")
  | .handleUpdateInvoice => some ("invoice-service", "/api/v1/invoices/" ++ param "id")
  | .handlePayInvoice =>
    some ("invoice-service", "/api/v1/invoices/" ++ param "id" ++ "/pay")
  | .handleGetNotifications => some ("notification-service", "/api/v1/notifications")
  | .handleSendNotification => some ("notification-service", "/api/v1/notifications")
  | .handleMarkNotificationRead =>
    some ("notification-service", "/api/v1/notifications/" ++ param "id" ++ "/read")
  | .handleGetPropertyReport => some ("report-service", "/api/v1/reports/properties")
  | .handleGetTenantReport => some ("report-service", "/api/v1/reports/tenants")
  | .handleGetInvoiceReport => some ("report-service", "/api/v1/reports/invoices")
  | .handleGenerateReport => some ("report-service", "/api/v1/reports/generate")
  | .handleAdminStats => some ("admin-service", "/api/v1/admin/stats")
  | .handleAdminUsers => some ("admin-service", "/api/v1/admin/users")
  | .handleAdminUpdateUserStatus =>
    some ("admin-service", "/api/v1/admin/users/" ++ param "id" ++ "/status")
  | _ => none

/-- The function behind each name of a chain. Every function records that it
was entered. -/
def Gateway.handlerFunc (g : Gateway) (env : Env) (h : Handler) : HandlerFunc :=
  fun next c =>
    let c := c.log (.handler h)
    match h with
    | .Recovery => Recovery next c
    | .Logger => Logger next c
    | .CORS => CORS next c
    | .RateLimit => RateLimit env next c
    | .Metrics => Metrics next c
    | .JWTAuth => JWTAuth env g.config.JWT.Secret next c
    | .AdminOnly => AdminOnly next c
    | .Health => c.JSON 200 (healthBody env.now)
    | .mainHealth => c.JSON 200 (healthBody env.now)
    | .promhttpHandler => { c with written := c.written ++ [(200, Body.text "")] }
    | h =>
      match h.target c.Param with
      | some (serviceName, path) => g.proxyToService env c serviceName path
      | none => c

/-- Serving one request with the router of `SetupRoutes`. -/
def Gateway.serve (g : Gateway) (env : Env) (req : Request) (store : Store) : Context :=
  SetupRoutes.ServeHTTP (g.handlerFunc env) req store

/-! ## Sequential requests through the limiter -/

/-- One request through the limiter on its own: the store it leaves, and
whether the request was passed on rather than rejected. -/
def limitStep (s : Store) (p : Env × Request) : Store × Bool :=
  let c := runChain [RateLimit p.1] (newContext p.2 s)
  (c.store, !c.aborted)

/-- The store after the requests were served one after the other. -/
def storeAfter (s : Store) (reqs : List (Env × Request)) : Store :=
  reqs.foldl (fun st p => (limitStep st p).1) s

/-- Whether the `n`-th request (counting from one) of the sequence is
passed on. -/
def admittedAt (s : Store) (reqs : List (Env × Request)) (n : Nat) : Bool :=
  match reqs.get? (n - 1) with
  | some p => (limitStep (storeAfter s (reqs.take (n - 1))) p).2
  | none => false

/-- The count held under `key`, zero when the key is absent. -/
def storedCount (s : Store) (key : String) : Int :=
  match s.find key with
  | some e =>
    match e.val with
    | .int n => n
    | .raw _ => 0
  | none => 0

/-- Surroundings in which the store answers and nothing else is reachable. -/
def quietEnv (now : Nat) : Env :=
  { now := now, getFails := false, exec := .none, verifyToken := fun _ _ => none,
    urlParse := fun _ => none, backend := fun _ => none }

/-! ## Predicates and inputs used by the statements -/

/-- The counter after `k` requests of a fresh run: absent before the first
request, `min k 100` with an expiry afterwards. -/
def CounterAt (key : String) (k : Nat) (s : Store) : Prop :=
  (k = 0 ∧ s.find key = none) ∨
  (0 < k ∧ ∃ d, s.find key = some { val := .int (min (k : Int) 100), expireAt := some d })

/-- Whether the counter under `key`, if there is one, has not expired at
time `now`. -/
def counterLive (s : Store) (key : String) (now : Nat) : Bool :=
  match s.find key with
  | some e => e.live now
  | none => true

/-- A store in which client 10.0.0.1 stands at 100 requests. -/
def fullStore : Store :=
  [("rate_limit:10.0.0.1", { val := .int 100, expireAt := some 50 })]

/-- A request of client 10.0.0.1. -/
def sampleRequest : Request :=
  { method := "GET", path := "/api/v1/users", header := [], clientIP := "10.0.0.1" }

/-- One hundred and one requests of client 10.0.0.1 within one minute. -/
def burst : List (Env × Request) :=
  List.replicate 101 (quietEnv 7, sampleRequest)

/-- A configuration with every service on its own host. -/
def sampleConfig : Config :=
  { Services :=
      { AuthService := { Host := "auth", Port := 8081, GRPCPort := 9081 }
        UserService := { Host := "user", Port := 8082, GRPCPort := 9082 }
        PropertyService := { Host := "property", Port := 8083, GRPCPort := 9083 }
        TenantService := { Host := "tenant", Port := 8084, GRPCPort := 9084 }
        InvoiceService := { Host := "invoice", Port := 8085, GRPCPort := 9085 }
        NotificationService := { Host := "notification", Port := 8086, GRPCPort := 9086 }
        ReportService := { Host := "report", Port := 8087, GRPCPort := 9087 }
        AdminService := { Host := "admin", Port := 8088, GRPCPort := 9088 }
        CaretakerService := { Host := "caretaker", Port := 8089, GRPCPort := 9089 } }
    JWT := { Secret := "test-secret" } }

/-- The request of the middleware tests: `GET /test` with the given value
of the Authorization header, or without the header when the value is empty. -/
def testRequest (authHeader : String) : Request :=
  { method := "GET", path := "/test",
    header := if authHeader = "" then [] else [("Authorization", [authHeader])],
    clientIP := "192.0.2.1" }

/-- The context in which the tests of AdminOnly run it: the role is set by
the middleware before it. -/
def roleContext (userRole : String) : Context :=
  (newContext (testRequest "") []).Set "user_role" userRole

/-- An inbound request with one Authorization value. -/
def bearerRequest : Request :=
  { method := "GET", path := "/api/v1/users",
    header := [("Authorization", ["Bearer t"]), ("Accept", ["text/html", "application/json"])],
    clientIP := "10.0.0.1" }

/-- Surroundings in which the store does not answer reads. -/
def downEnv (now : Nat) : Env :=
  { quietEnv now with getFails := true }

/-- Surroundings in which the increment pipeline never reaches the store. -/
def lossyEnv (now : Nat) : Env :=
  { quietEnv now with exec := .notSent }

/-- A DELETE on an admin path with a malformed Authorization header. -/
def oddRequest : Request :=
  { method := "DELETE", path := "/api/v1/admin/stats",
    header := [("Authorization", ["InvalidToken"])], clientIP := "10.0.0.1" }

/-- GET on the users path with a trailing slash, by client 10.0.0.1. -/
def slashRequest : Request :=
  { method := "GET", path := "/api/v1/users/", header := [], clientIP := "10.0.0.1" }

/-- Whether a registered path lies under the `/api/v1` group. -/
def underV1 (path : String) : Bool :=
  "/api/v1/".data.isPrefixOf path.data

/-- Method and path of a route. -/
def RouteInfo.key (r : RouteInfo) : String × String :=
  (r.method, r.path)

/-- Join segments with slashes: the inverse of `segments`. -/
def joinSegs : List String → String
  | [] => ""
  | [s] => s
  | s :: t :: rest => s ++ ("/" ++ joinSegs (t :: rest))

/-- The segments of a pattern once `assign` gives every parameter its
segment. -/
def fillPattern (assign : String → String) : List Seg → List String
  | [] => []
  | .static s :: ps => s :: fillPattern assign ps
  | .param name :: ps => assign name :: fillPattern assign ps

/-- The request path that results from a registered path pattern when
`assign` gives every parameter its segment. -/
def instantiate (pattern : String) (assign : String → String) : String :=
  joinSegs (fillPattern assign (parsePattern pattern))

/-- The parameters of a pattern with the segments `assign` gives them, in
the order of the pattern. -/
def boundParams (assign : String → String) : List Seg → List (String × String)
  | [] => []
  | .static _ :: ps => boundParams assign ps
  | .param name :: ps => (name, assign name) :: boundParams assign ps

/-- The names of the parameters of a pattern, in order. -/
def paramNames : List Seg → List String
  | [] => []
  | .static _ :: ps => paramNames ps
  | .param name :: ps => name :: paramNames ps

/-! ## Keys and windows of the limiter -/

/-- The 60-second window an instant falls in, counted from the epoch. -/
def windowOf (now : Nat) : Nat :=
  now / 60

/-- The key a store command names, `none` for the other events. -/
def Event.storeKey : Event → Option String
  | .redisGet key => some key
  | .redisIncr key => some key
  | .redisExpire key _ => some key
  | _ => none

/-- The keys of the commands RateLimit sends to the store for one request,
in order: the read and, when the request is counted, the increment and the
expiry. -/
def limiterKeys (env : Env) (req : Request) (store : Store) : List String :=
  (RateLimit env id (newContext req store)).trace.filterMap Event.storeKey

/-- The limiter serving a sequence of requests one after the other: the
store it leaves, and the instant of the last request that was passed on. -/
def runLimiter (s : Store) (reqs : List (Env × Request)) : Store × Option Nat :=
  reqs.foldl
    (fun acc p => ((limitStep acc.1 p).1, if (limitStep acc.1 p).2 then some p.1.now else acc.2))
    (s, none)

/-- The instant of the last request of the sequence that was passed on. -/
def lastCountedAt (s : Store) (reqs : List (Env × Request)) : Option Nat :=
  (runLimiter s reqs).2

/-- What the limiter keeps of a client between requests: no counter before
the first counted request, afterwards a count between 1 and 100 that expires
60 seconds after the last counted request. -/
def Tracked (key : String) (s : Store) (last : Option Nat) : Prop :=
  (last = none ∧ s.find key = none) ∨
  (∃ tl c, last = some tl ∧ 1 ≤ c ∧ c ≤ 100 ∧
    s.find key = some { val := .int c, expireAt := some (tl + 60) })

/-- One hundred requests of client 10.0.0.1: the first at instant 0, the
others at instant 59. -/
def slowBurst : List (Env × Request) :=
  (quietEnv 0, sampleRequest) :: List.replicate 99 (quietEnv 59, sampleRequest)

/-- One hundred and one requests of client 10.0.0.1, one every 59 seconds
from instant 0 on; the last is at instant 5900. -/
def steadyTraffic : List (Env × Request) :=
  (List.range 101).map (fun i => (quietEnv (59 * i), sampleRequest))

/-! ## Static segments and the order of registration -/

/-- The number of static segments of a pattern. -/
def staticCount : List Seg → Nat
  | [] => 0
  | .static _ :: ps => staticCount ps + 1
  | .param _ :: ps => staticCount ps

/-- Whether two patterns can match one and the same path: equal length and,
wherever both are static, the same segment. -/
def overlap : List Seg → List Seg → Bool
  | [], [] => true
  | .static a :: ps, .static b :: qs => decide (a = b) && overlap ps qs
  | _ :: ps, _ :: qs => overlap ps qs
  | _, _ => false

/-- The static search route of a resource group. -/
def searchRoute (group : String) (h : Handler) : RouteInfo :=
  { method := "GET", path := "/api/v1/" ++ group ++ "/search",
    handlers := [.Recovery, .Logger, .CORS, .RateLimit, .Metrics, .JWTAuth, h] }

/-- The parameter route of a resource group. -/
def idRoute (group : String) (h : Handler) : RouteInfo :=
  { method := "GET", path := "/api/v1/" ++ group ++ "/:id",
    handlers := [.Recovery, .Logger, .CORS, .RateLimit, .Metrics, .JWTAuth, h] }

/-- The table of SetupRoutes with its routes registered in the opposite
order. -/
def reversedRouter : Engine :=
  { SetupRoutes with routes := SetupRoutes.routes.reverse }

/-- The logical service names the gateway is configured with. -/
def serviceNames : List String :=
  ["auth-service", "user-service", "property-service", "tenant-service", "invoice-service",
   "notification-service", "report-service", "admin-service", "caretaker-service"]

/-! ## Lemmas about the store and the limiter -/

theorem Store.find_put_same (s : Store) (key : String) (e : Entry) :
    (s.put key e).find key = some e := by
  induction s with
  | nil => simp [Store.put, Store.find]
  | cons kv rest ih =>
    obtain ⟨k, e0⟩ := kv
    by_cases h : k = key
    · simp [Store.put, Store.find, h]
    · simp [Store.put, Store.find, h, ih]

theorem Store.get?_put_same (s : Store) (now : Nat) (key : String) (e : Entry) :
    (s.put key e).get? now key = if e.live now then some e else none := by
  simp [Store.get?, Store.find_put_same]

theorem Store.live_of_get? {s : Store} {now : Nat} {key : String} {e : Entry}
    (h : s.get? now key = some e) : e.live now = true := by
  unfold Store.get? at h
  split at h
  · split at h
    · rename_i hlive
      cases h; exact hlive
    · cases h
  · cases h

theorem incr_expire_absent (s : Store) (now : Nat) (key : String)
    (h : s.get? now key = none) :
    (execIncrExpire .none s now key 60).2 = none ∧
    (execIncrExpire .none s now key 60).1.find key =
      some { val := .int 1, expireAt := some (now + 60) } := by
  have hi : incr s now key = (s.put key { val := .int 1, expireAt := none }, none) := by
    unfold incr; rw [h]
  have hg : (s.put key { val := .int 1, expireAt := none }).get? now key =
      some { val := .int 1, expireAt := none } := by
    rw [Store.get?_put_same]; rfl
  unfold execIncrExpire
  simp only [hi]
  unfold expire
  rw [hg]
  exact ⟨trivial, Store.find_put_same _ _ _⟩

theorem incr_expire_live (s : Store) (now : Nat) (key : String) (m : Int) (x : Option Nat)
    (h : s.get? now key = some { val := .int m, expireAt := x })
    (h0 : 0 ≤ m) (h1 : m < 100) :
    (execIncrExpire .none s now key 60).2 = none ∧
    (execIncrExpire .none s now key 60).1.find key =
      some { val := .int (m + 1), expireAt := some (now + 60) } := by
  have hr : minInt64 ≤ m ∧ m < maxInt64 := by
    simp only [minInt64, maxInt64]; constructor <;> omega
  have hl : (Entry.mk (.int m) x).live now = true := Store.live_of_get? h
  have hl2 : (Entry.mk (.int (m + 1)) x).live now = true := by
    simpa [Entry.live] using hl
  have hi : incr s now key = (s.put key { val := .int (m + 1), expireAt := x }, none) := by
    unfold incr; rw [h]; simp only [if_pos hr]
  have hg : (s.put key { val := .int (m + 1), expireAt := x }).get? now key =
      some { val := .int (m + 1), expireAt := x } := by
    rw [Store.get?_put_same, if_pos hl2]
  unfold execIncrExpire
  simp only [hi]
  unfold expire
  rw [hg]
  exact ⟨trivial, Store.find_put_same _ _ _⟩

theorem limitStep_admit (s : Store) (env : Env) (req : Request)
    (hget : env.getFails = false) (hexec : env.exec = .none)
    (hcount : (getInt false s env.now (rateLimitKey req.clientIP)).2 ≠ some .other)
    (hlt : (getInt false s env.now (rateLimitKey req.clientIP)).1 < 100) :
    limitStep s (env, req) =
      ((execIncrExpire .none s env.now (rateLimitKey req.clientIP) 60).1, true) := by
  have h1 : ¬ ((getInt false s env.now (rateLimitKey req.clientIP)).2 ≠ none ∧
      (getInt false s env.now (rateLimitKey req.clientIP)).2 ≠ some .Nil) := by
    rcases hh : (getInt false s env.now (rateLimitKey req.clientIP)).2 with _ | x
    · simp
    · cases x
      · simp
      · exact absurd hh hcount
  have h2 : ¬ ((getInt false s env.now (rateLimitKey req.clientIP)).1 ≥ 100) := by omega
  simp only [limitStep, runChain, RateLimit, Context.log, newContext, hget, hexec]
  rw [if_neg h1, if_neg h2]
  simp

theorem limitStep_reject (s : Store) (env : Env) (req : Request)
    (hget : env.getFails = false)
    (hcount : (getInt false s env.now (rateLimitKey req.clientIP)).2 = none)
    (hge : 100 ≤ (getInt false s env.now (rateLimitKey req.clientIP)).1) :
    limitStep s (env, req) = (s, false) := by
  simp [limitStep, runChain, RateLimit, Context.log, newContext, hget, hcount, hge,
    Context.JSON, Context.Abort]

theorem storeAfter_take_succ (s : Store) (reqs : List (Env × Request)) (k : Nat)
    (p : Env × Request) (hp : reqs.get? k = some p) :
    storeAfter s (reqs.take (k + 1)) = (limitStep (storeAfter s (reqs.take k)) p).1 := by
  have : reqs.take (k + 1) = reqs.take k ++ [p] := by
    rw [List.take_succ]; simp [← List.get?_eq_getElem?, hp]
  rw [this]
  simp [storeAfter, List.foldl_append]

theorem limitStep_counter (key : String) (k : Nat) (s : Store) (p : Env × Request)
    (hinv : CounterAt key k s) (hip : rateLimitKey p.2.clientIP = key)
    (hget : p.1.getFails = false) (hexec : p.1.exec = .none)
    (hlive : ∀ e, s.find key = some e → e.live p.1.now = true) :
    CounterAt key (k + 1) (limitStep s p).1 ∧ ((limitStep s p).2 = true ↔ k + 1 ≤ 100) := by
  obtain ⟨env, req⟩ := p
  simp only at hip hget hexec hlive
  subst hip
  rcases hinv with ⟨hk, habs⟩ | ⟨hk, d, hfind⟩
  · subst hk
    have hg : s.get? env.now (rateLimitKey req.clientIP) = none := by
      simp [Store.get?, habs]
    have hgi : getInt false s env.now (rateLimitKey req.clientIP) = (0, some .Nil) := by
      simp [getInt, hg]
    have hstep := limitStep_admit s env req hget hexec (by simp [hgi]) (by simp [hgi])
    obtain ⟨_, hf⟩ := incr_expire_absent s env.now (rateLimitKey req.clientIP) hg
    rw [hstep]
    refine ⟨Or.inr ⟨by omega, env.now + 60, ?_⟩, by simp⟩
    simpa using hf
  · have hl := hlive _ hfind
    have hg : s.get? env.now (rateLimitKey req.clientIP) =
        some { val := .int (min (k : Int) 100), expireAt := some d } := by
      simp [Store.get?, hfind, hl]
    have hrange : minInt64 ≤ min (k : Int) 100 ∧ min (k : Int) 100 ≤ maxInt64 := by
      simp only [minInt64, maxInt64]; constructor <;> omega
    have hgi : getInt false s env.now (rateLimitKey req.clientIP) =
        (min (k : Int) 100, none) := by
      simp only [getInt, hg, atoi, if_pos hrange]; simp
    by_cases hlt : k < 100
    · have hmin : min (k : Int) 100 = k := by omega
      have hstep := limitStep_admit s env req hget hexec (by simp [hgi]) (by simp [hgi]; omega)
      obtain ⟨_, hf⟩ := incr_expire_live s env.now (rateLimitKey req.clientIP) _ _ hg
        (by omega) (by omega)
      rw [hstep]
      refine ⟨Or.inr ⟨by omega, env.now + 60, ?_⟩, by simp; omega⟩
      rw [hf]
      have : min ((k + 1 : Nat) : Int) 100 = min (k : Int) 100 + 1 := by omega
      rw [this]
    · have hmin : min (k : Int) 100 = 100 := by omega
      have hstep := limitStep_reject s env req hget (by simp [hgi]) (by simp [hgi]; omega)
      rw [hstep]
      refine ⟨Or.inr ⟨by omega, d, ?_⟩, by simp; omega⟩
      rw [hfind]
      have : min ((k + 1 : Nat) : Int) 100 = min (k : Int) 100 := by omega
      rw [this]

theorem counterAt_storeAfter (ip : String) (s : Store) (reqs : List (Env × Request))
    (habsent : s.find (rateLimitKey ip) = none)
    (hclient : ∀ p ∈ reqs, p.2.clientIP = ip)
    (hstore : ∀ p ∈ reqs, p.1.getFails = false ∧ p.1.exec = ExecFault.none)
    (hlive : ∀ k (h : k < reqs.length),
      counterLive (storeAfter s (reqs.take k)) (rateLimitKey ip) (reqs.get ⟨k, h⟩).1.now = true)
    (k : Nat) (hk : k ≤ reqs.length) :
    CounterAt (rateLimitKey ip) k (storeAfter s (reqs.take k)) := by
  induction k with
  | zero => exact Or.inl ⟨rfl, by simpa [storeAfter] using habsent⟩
  | succ k ih =>
    have hlt : k < reqs.length := hk
    have hp : reqs.get? k = some (reqs.get ⟨k, hlt⟩) := List.get?_eq_get hlt
    have hmem : reqs.get ⟨k, hlt⟩ ∈ reqs := List.get_mem _ _ _
    rw [storeAfter_take_succ s reqs k _ hp]
    refine (limitStep_counter _ k _ _ (ih (by omega)) ?_ (hstore _ hmem).1 (hstore _ hmem).2 ?_).1
    · rw [hclient _ hmem]
    · intro e he
      have := hlive k hlt
      simpa [counterLive, he] using this

/-! ## Lemmas about route lookup -/

theorem foldl_pickRoute_mem (l : List (RouteInfo × List (String × String)))
    (init : Option (RouteInfo × List (String × String)))
    (x : RouteInfo × List (String × String))
    (h : l.foldl pickRoute init = some x) : x ∈ l ∨ init = some x := by
  induction l generalizing init with
  | nil => exact Or.inr h
  | cons a rest ih =>
    rcases ih _ h with hx | hx
    · exact Or.inl (List.mem_cons_of_mem _ hx)
    · cases init with
      | none =>
        simp only [pickRoute, Option.some.injEq] at hx
        exact Or.inl (hx ▸ List.mem_cons_self _ _)
      | some b =>
        simp only [pickRoute] at hx
        split at hx
        · simp only [Option.some.injEq] at hx
          exact Or.inl (hx ▸ List.mem_cons_self _ _)
        · exact Or.inr hx

theorem foldl_pickRoute_isSome (l : List (RouteInfo × List (String × String)))
    (init : Option (RouteInfo × List (String × String)))
    (h : init.isSome = true ∨ l ≠ []) : (l.foldl pickRoute init).isSome = true := by
  induction l generalizing init with
  | nil =>
    rcases h with h | h
    · exact h
    · exact absurd rfl h
  | cons a rest ih =>
    apply ih
    left
    cases init with
    | none => rfl
    | some b => simp only [pickRoute]; split <;> rfl

theorem getValue_sound (e : Engine) (httpMethod path : String) (r : RouteInfo)
    (ps : List (String × String)) (h : e.getValue httpMethod path = some (r, ps)) :
    r ∈ e.routes ∧ r.method = httpMethod ∧
      matchPattern (parsePattern r.path) (segments path) = some ps := by
  rcases foldl_pickRoute_mem _ _ _ h with hm | hm
  · simp only [matchingRoutes, List.mem_filterMap] at hm
    obtain ⟨r0, hr0, hsome⟩ := hm
    split at hsome
    · rename_i hmeth
      simp only [Option.map_eq_some', Prod.mk.injEq] at hsome
      obtain ⟨ps0, hmatch, rfl, rfl⟩ := hsome
      exact ⟨hr0, hmeth, hmatch⟩
    · cases hsome
  · cases hm

theorem getValue_complete (e : Engine) (httpMethod path : String) (r : RouteInfo)
    (ps : List (String × String)) (hr : r ∈ e.routes) (hm : r.method = httpMethod)
    (hmatch : matchPattern (parsePattern r.path) (segments path) = some ps) :
    (e.getValue httpMethod path).isSome = true := by
  apply foldl_pickRoute_isSome
  right
  intro hnil
  have : (r, ps) ∈ matchingRoutes e.routes httpMethod (segments path) := by
    simp only [matchingRoutes, List.mem_filterMap]
    exact ⟨r, hr, by simp [hm, hmatch]⟩
  rw [hnil] at this
  cases this

/-! ## Lemmas about paths and patterns -/

theorem splitOnSlash_ne_nil (l : List Char) : splitOnSlash l ≠ [] := by
  cases l with
  | nil => simp [splitOnSlash]
  | cons ch rest =>
    simp only [splitOnSlash]
    split
    · simp
    · split <;> simp

theorem splitOnSlash_slash (rest : List Char) :
    splitOnSlash ('/' :: rest) = [] :: splitOnSlash rest := by
  simp only [splitOnSlash]
  split
  · rename_i heq; exact absurd heq (splitOnSlash_ne_nil rest)
  · rename_i heq; simp [heq]

theorem splitOnSlash_cons_ne (ch : Char) (rest seg : List Char) (segs : List (List Char))
    (hch : ch ≠ '/') (h : splitOnSlash rest = seg :: segs) :
    splitOnSlash (ch :: rest) = (ch :: seg) :: segs := by
  simp only [splitOnSlash, h, if_neg hch]

theorem splitOnSlash_no_slash (l : List Char) : ∀ seg ∈ splitOnSlash l, '/' ∉ seg := by
  induction l with
  | nil => simp [splitOnSlash]
  | cons ch rest ih =>
    intro seg hseg
    by_cases hch : ch = '/'
    · subst hch
      rw [splitOnSlash_slash] at hseg
      rcases List.mem_cons.1 hseg with h | h
      · subst h; simp
      · exact ih _ h
    · obtain ⟨s0, ss, heq⟩ := List.exists_cons_of_ne_nil (splitOnSlash_ne_nil rest)
      rw [splitOnSlash_cons_ne ch rest s0 ss hch heq] at hseg
      rw [heq] at ih
      rcases List.mem_cons.1 hseg with h | h
      · subst h
        have := ih s0 (List.mem_cons_self _ _)
        simp only [List.mem_cons, not_or]
        exact ⟨fun h => hch h.symm, this⟩
      · exact ih _ (List.mem_cons_of_mem _ h)

theorem splitOnSlash_of_no_slash (l : List Char) (h : '/' ∉ l) : splitOnSlash l = [l] := by
  induction l with
  | nil => rfl
  | cons ch rest ih =>
    simp only [List.mem_cons, not_or] at h
    exact splitOnSlash_cons_ne ch rest rest [] (fun hc => h.1 hc.symm) (ih h.2)

theorem splitOnSlash_append_slash (l rest : List Char) (h : '/' ∉ l) :
    splitOnSlash (l ++ '/' :: rest) = l :: splitOnSlash rest := by
  induction l with
  | nil => exact splitOnSlash_slash rest
  | cons ch tl ih =>
    simp only [List.mem_cons, not_or] at h
    exact splitOnSlash_cons_ne ch _ tl _ (fun hc => h.1 hc.symm) (ih h.2)

theorem joinSegs_cons_cons_data (s t : String) (rest : List String) :
    (joinSegs (s :: t :: rest)).data = s.data ++ '/' :: (joinSegs (t :: rest)).data := by
  simp only [joinSegs, String.data_append]
  rfl

/-- Splitting undoes joining when no segment holds a slash. -/
theorem segments_joinSegs (segs : List String) (hne : segs ≠ [])
    (hs : ∀ s ∈ segs, '/' ∉ s.data) : segments (joinSegs segs) = segs := by
  induction segs with
  | nil => exact absurd rfl hne
  | cons s rest ih =>
    cases rest with
    | nil =>
      simp only [joinSegs, segments]
      rw [splitOnSlash_of_no_slash _ (hs s (List.mem_cons_self _ _))]
      rfl
    | cons t rest =>
      have ih := ih (by simp) (fun x hx => hs x (List.mem_cons_of_mem _ hx))
      simp only [segments] at ih ⊢
      rw [joinSegs_cons_cons_data, splitOnSlash_append_slash _ _ (hs s (List.mem_cons_self _ _))]
      simp only [List.map_cons, ih]

theorem joinSegs_map_mk (l : List Char) :
    joinSegs ((splitOnSlash l).map String.mk) = String.mk l := by
  induction l with
  | nil => rfl
  | cons ch rest ih =>
    by_cases hch : ch = '/'
    · subst hch
      rw [splitOnSlash_slash]
      obtain ⟨s0, ss, heq⟩ := List.exists_cons_of_ne_nil (splitOnSlash_ne_nil rest)
      rw [heq] at ih ⊢
      simp only [List.map_cons] at ih ⊢
      apply String.ext
      rw [joinSegs_cons_cons_data, ih]
      rfl
    · obtain ⟨s0, ss, heq⟩ := List.exists_cons_of_ne_nil (splitOnSlash_ne_nil rest)
      rw [splitOnSlash_cons_ne ch rest s0 ss hch heq]
      rw [heq] at ih
      cases ss with
      | nil =>
        simp only [List.map_cons, List.map_nil, joinSegs] at ih ⊢
        have : s0 = rest := by simpa using congrArg String.data ih
        rw [this]
      | cons s1 ss =>
        simp only [List.map_cons] at ih ⊢
        apply String.ext
        have h1 := congrArg String.data ih
        rw [joinSegs_cons_cons_data] at h1 ⊢
        simp only [List.cons_append]
        rw [h1]

/-- Joining undoes splitting. -/
theorem joinSegs_segments (p : String) : joinSegs (segments p) = p := by
  cases p with
  | mk l => exact joinSegs_map_mk l

/-! ## Lemmas about the route table -/

/-- The route table of SetupRoutes, written out. -/
theorem SetupRoutes_routes :
    SetupRoutes.routes =
      [
       { method := "GET", path := "/health",
         handlers := [.Recovery, .Logger, .CORS, .RateLimit, .Metrics, .Health] },
       { method := "POST", path := "/api/v1/auth/register",
         handlers := [.Recovery, .Logger, .CORS, .RateLimit, .Metrics, .handleAuthRegister] },
       { method := "POST", path := "/api/v1/auth/login",
         handlers := [.Recovery, .Logger, .CORS, .RateLimit, .Metrics, .handleAuthLogin] },
       { method := "POST", path := "/api/v1/auth/refresh",
         handlers := [.Recovery, .Logger, .CORS, .RateLimit, .Metrics, .handleAuthRefresh] },
       { method := "GET", path := "/api/v1/auth/profile",
         handlers := [.Recovery, .Logger, .CORS, .RateLimit, .Metrics, .JWTAuth, .handleAuthProfile] },
       { method := "PUT", path := "/api/v1/auth/profile",
         handlers := [.Recovery, .Logger, .CORS, .RateLimit, .Metrics, .JWTAuth, .handleAuthUpdateProfile] },
       { method := "POST", path := "/api/v1/auth/logout",
         handlers := [.Recovery, .Logger, .CORS, .RateLimit, .Metrics, .JWTAuth, .handleAuthLogout] },
       { method := "GET", path := "/api/v1/users",
         handlers := [.Recovery, .Logger, .CORS, .RateLimit, .Metrics, .JWTAuth, .handleGetUsers] },
       { method := "GET", path := "/api/v1/users/:id",
         handlers := [.Recovery, .Logger, .CORS, .RateLimit, .Metrics, .JWTAuth, .handleGetUser] },
       { method := "PUT", path := "/api/v1/users/:id",
         handlers := [.Recovery, .Logger, .CORS, .RateLimit, .Metrics, .JWTAuth, .handleUpdateUser] },
       { method := "DELETE", path := "/api/v1/users/:id",
         handlers := [.Recovery, .Logger, .CORS, .RateLimit, .Metrics, .JWTAuth, .handleDeleteUser] },
       { method := "GET", path := "/api/v1/properties",
         handlers := [.Recovery, .Logger, .CORS, .RateLimit, .Metrics, .JWTAuth, .handleGetProperties] },
       { method := "GET", path := "/api/v1/properties/search",
         handlers := [.Recovery, .Logger, .CORS, .RateLimit, .Metrics, .JWTAuth, .handleSearchProperties] },
       { method := "GET", path := "/api/v1/properties/:id",
         handlers := [.Recovery, .Logger, .CORS, .RateLimit, .Metrics, .JWTAuth, .handleGetProperty] },
       { method := "POST", path := "/api/v1/properties",
         handlers := [.Recovery, .Logger, .CORS, .RateLimit, .Metrics, .JWTAuth, .handleCreateProperty] },
       { method := "PUT", path := "/api/v1/properties/:id",
         handlers := [.Recovery, .Logger, .CORS, .RateLimit, .Metrics, .JWTAuth, .handleUpdateProperty] },
       { method := "DELETE", path := "/api/v1/properties/:id",
         handlers := [.Recovery, .Logger, .CORS, .RateLimit, .Metrics, .JWTAuth, .handleDeleteProperty] },
       { method := "GET", path := "/api/v1/tenants",
         handlers := [.Recovery, .Logger, .CORS, .RateLimit, .Metrics, .JWTAuth, .handleGetTenants] },
       { method := "GET", path := "/api/v1/tenants/search",
         handlers := [.Recovery, .Logger, .CORS, .RateLimit, .Metrics, .JWTAuth, .handleSearchTenants] },
       { method := "GET", path := "/api/v1/tenants/:id",
         handlers := [.Recovery, .Logger, .CORS, .RateLimit, .Metrics, .JWTAuth, .handleGetTenant] },
       { method := "POST", path := "/api/v1/tenants",
         handlers := [.Recovery, .Logger, .CORS, .RateLimit, .Metrics, .JWTAuth, .handleCreateTenant] },
       { method := "PUT", path := "/api/v1/tenants/:id",
         handlers := [.Recovery, .Logger, .CORS, .RateLimit, .Metrics, .JWTAuth, .handleUpdateTenant] },
       { method := "DELETE", path := "/api/v1/tenants/:id",
         handlers := [.Recovery, .Logger, .CORS, .RateLimit, .Metrics, .JWTAuth, .handleDeleteTenant] },
       { method := "GET", path := "/api/v1/caretakers",
         handlers := [.Recovery, .Logger, .CORS, .RateLimit, .Metrics, .JWTAuth, .handleGetCaretakers] },
       { method := "GET", path := "/api/v1/caretakers/search",
         handlers := [.Recovery, .Logger, .CORS, .RateLimit, .Metrics, .JWTAuth, .handleSearchCaretakers] },
       { method := "GET", path := "/api/v1/caretakers/:id",
         handlers := [.Recovery, .Logger, .CORS, .RateLimit, .Metrics, .JWTAuth, .handleGetCaretaker] },
       { method := "POST", path := "/api/v1/caretakers",
         handlers := [.Recovery, .Logger, .CORS, .RateLimit, .Metrics, .JWTAuth, .handleCreateCaretaker] },
       { method := "PUT", path := "/api/v1/caretakers/:id",
         handlers := [.Recovery, .Logger, .CORS, .RateLimit, .Metrics, .JWTAuth, .handleUpdateCaretaker] },
       { method := "DELETE", path := "/api/v1/caretakers/:id",
         handlers := [.Recovery, .Logger, .CORS, .RateLimit, .Metrics, .JWTAuth, .handleDeleteCaretaker] },
       { method := "GET", path := "/api/v1/invoices",
         handlers := [.Recovery, .Logger, .CORS, .RateLimit, .Metrics, .JWTAuth, .handleGetInvoices] },
       { method := "GET", path := "/api/v1/invoices/:id",
         handlers := [.Recovery, .Logger, .CORS, .RateLimit, .Metrics, .JWTAuth, .handleGetInvoice] },
       { method := "POST", path := "/api/v1/invoices",
         handlers := [.Recovery, .Logger, .CORS, .RateLimit, .Metrics, .JWTAuth, .handleCreateInvoice] },
       { method := "PUT", path := "/api/v1/invoices/:id",
         handlers := [.Recovery, .Logger, .CORS, .RateLimit, .Metrics, .JWTAuth, .handleUpdateInvoice] },
       { method := "POST", path := "/api/v1/invoices/:id/pay",
         handlers := [.Recovery, .Logger, .CORS, .RateLimit, .Metrics, .JWTAuth, .handlePayInvoice] },
       { method := "GET", path := "/api/v1/notifications",
         handlers := [.Recovery, .Logger, .CORS, .RateLimit, .Metrics, .JWTAuth, .handleGetNotifications] },
       { method := "POST", path := "/api/v1/notifications",
         handlers := [.Recovery, .Logger, .CORS, .RateLimit, .Metrics, .JWTAuth, .handleSendNotification] },
       { method := "PUT", path := "/api/v1/notifications/:id/read",
         handlers := [.Recovery, .Logger, .CORS, .RateLimit, .Metrics, .JWTAuth, .handleMarkNotificationRead] },
       { method := "GET", path := "/api/v1/reports/properties",
         handlers := [.Recovery, .Logger, .CORS, .RateLimit, .Metrics, .JWTAuth, .handleGetPropertyReport] },
       { method := "GET", path := "/api/v1/reports/tenants",
         handlers := [.Recovery, .Logger, .CORS, .RateLimit, .Metrics, .JWTAuth, .handleGetTenantReport] },
       { method := "GET", path := "/api/v1/reports/invoices",
         handlers := [.Recovery, .Logger, .CORS, .RateLimit, .Metrics, .JWTAuth, .handleGetInvoiceReport] },
       { method := "POST", path := "/api/v1/reports/generate",
         handlers := [.Recovery, .Logger, .CORS, .RateLimit, .Metrics, .JWTAuth, .handleGenerateReport] },
       { method := "GET", path := "/api/v1/admin/stats",
         handlers := [.Recovery, .Logger, .CORS, .RateLimit, .Metrics, .JWTAuth, .AdminOnly, .handleAdminStats] },
       { method := "GET", path := "/api/v1/admin/users",
         handlers := [.Recovery, .Logger, .CORS, .RateLimit, .Metrics, .JWTAuth, .AdminOnly, .handleAdminUsers] },
       { method := "PUT", path := "/api/v1/admin/users/:id/status",
         handlers := [.Recovery, .Logger, .CORS, .RateLimit, .Metrics, .JWTAuth, .AdminOnly, .handleAdminUpdateUserStatus] }
      ] := by
  decide

theorem route_target (r : RouteInfo) (hr : r ∈ SetupRoutes.routes)
    (hv : underV1 r.path = true) (x : String) :
    ∃ h serviceName, r.handlers.getLast? = some h ∧
      h.target (fun _ => x) =
        some (serviceName, joinSegs (fillPattern (fun _ => x) (parsePattern r.path))) := by
  rw [SetupRoutes_routes] at hr
  simp only [List.mem_cons, List.mem_singleton, List.not_mem_nil, or_false] at hr
  cases x with
  | mk l =>
    rcases hr with rfl | rfl | rfl | rfl | rfl | rfl | rfl | rfl | rfl | rfl | rfl | rfl | rfl | rfl | rfl | rfl | rfl | rfl | rfl | rfl | rfl | rfl | rfl | rfl | rfl | rfl | rfl | rfl | rfl | rfl | rfl | rfl | rfl | rfl | rfl | rfl | rfl | rfl | rfl | rfl | rfl | rfl | rfl | rfl
    all_goals first
      | exact absurd hv (by decide)
      | exact ⟨_, _, rfl, rfl⟩

/-! ## Lemmas about matching -/

theorem fillPattern_congr (f g : String → String) (P : List Seg)
    (h : ∀ n ∈ paramNames P, f n = g n) : fillPattern f P = fillPattern g P := by
  induction P with
  | nil => rfl
  | cons seg rest ih =>
    cases seg with
    | static s =>
      simp only [fillPattern]
      rw [ih (fun n hn => h n (by simpa [paramNames] using hn))]
    | param name =>
      simp only [fillPattern]
      rw [h name (by simp [paramNames]),
        ih (fun n hn => h n (by simp [paramNames, hn]))]

theorem matchPattern_fill (f : String → String) (P : List Seg)
    (h : ∀ n ∈ paramNames P, f n ≠ "") :
    matchPattern P (fillPattern f P) = some (boundParams f P) := by
  induction P with
  | nil => rfl
  | cons seg rest ih =>
    cases seg with
    | static s =>
      simp only [fillPattern, matchPattern, boundParams, if_true]
      exact ih (fun n hn => h n (by simpa [paramNames] using hn))
    | param name =>
      simp only [fillPattern, matchPattern, boundParams]
      rw [if_neg (h name (by simp [paramNames])),
        ih (fun n hn => h n (by simp [paramNames, hn]))]
      rfl

theorem matchPattern_lookup (P : List Seg) (segs : List String) (ps : List (String × String))
    (h : matchPattern P segs = some ps) (hnodup : (paramNames P).Nodup) :
    fillPattern (fun n => (ps.lookup n).getD "") P = segs := by
  induction P generalizing segs ps with
  | nil =>
    cases segs with
    | nil => rfl
    | cons x xs => simp [matchPattern] at h
  | cons seg rest ih =>
    cases segs with
    | nil => cases seg <;> simp [matchPattern] at h
    | cons x xs =>
      cases seg with
      | static s =>
        simp only [matchPattern] at h
        split at h
        · rename_i hs
          simp only [fillPattern, hs]
          rw [ih xs ps h (by simpa [paramNames] using hnodup)]
        · cases h
      | param name =>
        simp only [matchPattern] at h
        split at h
        · cases h
        · simp only [Option.map_eq_some'] at h
          obtain ⟨ps0, hps0, rfl⟩ := h
          simp only [paramNames, List.nodup_cons] at hnodup
          simp only [fillPattern]
          have hx : ((List.lookup name ((name, x) :: ps0)).getD "") = x := by
            simp [List.lookup]
          rw [hx]
          have hc : fillPattern (fun n => (List.lookup n ((name, x) :: ps0)).getD "") rest =
              fillPattern (fun n => (List.lookup n ps0).getD "") rest := by
            apply fillPattern_congr
            intro n hn
            have hne : (n == name) = false := by
              simpa using fun heq : n = name => hnodup.1 (heq ▸ hn)
            simp [List.lookup, hne]
          rw [hc, ih xs ps0 hps0 hnodup.2]

theorem parsePattern_static_no_slash (p s : String) (h : Seg.static s ∈ parsePattern p) :
    '/' ∉ s.data := by
  simp only [parsePattern, segments, List.map_map, List.mem_map, Function.comp] at h
  obtain ⟨l, hl, hseg⟩ := h
  have hno := splitOnSlash_no_slash _ l hl
  unfold parseSeg at hseg
  split at hseg
  · cases hseg
  · simp only [Seg.static.injEq] at hseg
    subst hseg
    exact hno

theorem fillPattern_no_slash (f : String → String) (P : List Seg)
    (hf : ∀ n, '/' ∉ (f n).data) (hP : ∀ s, Seg.static s ∈ P → '/' ∉ s.data) :
    ∀ x ∈ fillPattern f P, '/' ∉ x.data := by
  induction P with
  | nil => simp [fillPattern]
  | cons seg rest ih =>
    have ih := ih (fun s hs => hP s (List.mem_cons_of_mem _ hs))
    cases seg with
    | static s =>
      intro x hx
      simp only [fillPattern, List.mem_cons] at hx
      rcases hx with rfl | hx
      · exact hP _ (List.mem_cons_self _ _)
      · exact ih x hx
    | param name =>
      intro x hx
      simp only [fillPattern, List.mem_cons] at hx
      rcases hx with rfl | hx
      · exact hf name
      · exact ih x hx

theorem fillPattern_ne_nil (f : String → String) (P : List Seg) (h : P ≠ []) :
    fillPattern f P ≠ [] := by
  cases P with
  | nil => exact absurd rfl h
  | cons seg rest => cases seg <;> simp [fillPattern]

theorem parsePattern_ne_nil (p : String) : parsePattern p ≠ [] := by
  simp only [parsePattern, segments, ne_eq, List.map_eq_nil_iff]
  exact splitOnSlash_ne_nil _

/-- The segments of an instantiated pattern are the filled pattern. -/
theorem segments_instantiate (p : String) (f : String → String)
    (hf : ∀ n, '/' ∉ (f n).data) :
    segments (instantiate p f) = fillPattern f (parsePattern p) :=
  segments_joinSegs _ (fillPattern_ne_nil f _ (parsePattern_ne_nil p))
    (fillPattern_no_slash f _ hf (parsePattern_static_no_slash p))

theorem target_only_id (f : String → String) (h : Handler) :
    h.target f = h.target (fun _ => f "id") := by
  cases h <;> rfl

theorem handlerFunc_of_target (g : Gateway) (env : Env) (h : Handler)
    (next : Context → Context) (c : Context) (serviceName path : String)
    (ht : h.target c.Param = some (serviceName, path)) :
    g.handlerFunc env h next c = g.proxyToService env (c.log (.handler h)) serviceName path := by
  cases h <;> simp only [Handler.target] at ht <;>
    first
      | (cases ht; rfl)
      | cases ht

/-! ## Lemmas about the director -/

theorem Header.addValue_at (pre post : Header) (key : String) (ws : List String) (value : String)
    (hpre : key ∉ pre.map Prod.fst) :
    Header.addValue (pre ++ (key, ws) :: post) key value = pre ++ (key, ws ++ [value]) :: post := by
  induction pre with
  | nil => simp [Header.addValue]
  | cons kv rest ih =>
    obtain ⟨k, vs⟩ := kv
    simp only [List.map_cons, List.mem_cons, not_or] at hpre
    have hk : ¬ k = key := fun h => hpre.1 h.symm
    show Header.addValue ((k, vs) :: (rest ++ (key, ws) :: post)) key value =
      (k, vs) :: (rest ++ (key, ws ++ [value]) :: post)
    rw [Header.addValue, if_neg hk, ih hpre.2]

theorem Header.foldl_Add_at (pre post : Header) (key : String) (ws vs : List String)
    (hcanon : canonicalMIMEHeaderKey key = key) (hpre : key ∉ pre.map Prod.fst) :
    vs.foldl (fun hd value => Header.Add hd key value) (pre ++ (key, ws) :: post) =
      pre ++ (key, ws ++ vs) :: post := by
  induction vs generalizing ws with
  | nil => simp
  | cons v rest ih =>
    simp only [List.foldl_cons, Header.Add, hcanon]
    rw [Header.addValue_at pre post key ws v hpre]
    have := ih (ws ++ [v])
    simp only [Header.Add, hcanon] at this
    rw [this]
    simp

theorem foldl_header (key : String) (vs : List String) (r : OutRequest) :
    (vs.foldl (fun r value => { r with header := r.header.Add key value }) r).header =
      vs.foldl (fun hd value => Header.Add hd key value) r.header := by
  induction vs generalizing r with
  | nil => rfl
  | cons v rest ih => simp only [List.foldl_cons]; rw [ih]

theorem Director_fold (todo pre : Header) (r : OutRequest)
    (hr : r.header = pre ++ todo)
    (hcanon : ∀ kv ∈ todo, canonicalMIMEHeaderKey kv.1 = kv.1)
    (hnodup : ((pre ++ todo).map Prod.fst).Nodup) :
    (todo.foldl
      (fun r kv => kv.2.foldl (fun r value => { r with header := r.header.Add kv.1 value }) r)
      r).header = pre ++ todo.map (fun kv => (kv.1, kv.2 ++ kv.2)) := by
  induction todo generalizing pre r with
  | nil => simpa using hr
  | cons kv rest ih =>
    obtain ⟨k, vs⟩ := kv
    have hk : k ∉ pre.map Prod.fst := by
      simp only [List.map_append, List.map_cons, List.nodup_append, List.nodup_cons] at hnodup
      intro hmem
      exact hnodup.2.2 hmem (List.mem_cons_self _ _)
    have hstep : (vs.foldl (fun r value => { r with header := r.header.Add k value }) r).header =
        (pre ++ [(k, vs ++ vs)]) ++ rest := by
      rw [foldl_header, hr,
        Header.foldl_Add_at pre rest k vs vs (hcanon (k, vs) (List.mem_cons_self _ _)) hk]
      simp
    simp only [List.foldl_cons]
    rw [ih (pre ++ [(k, vs ++ vs)]) _ hstep
      (fun kv hkv => hcanon kv (List.mem_cons_of_mem _ hkv))
      (by simpa [List.map_append] using hnodup)]
    simp

/-- Whenever the inbound header names are canonical and pairwise distinct,
the outbound request carries every inbound list of values twice over. -/
theorem outboundRequest_header (targetScheme targetHost path : String) (req : Request)
    (hcanon : ∀ kv ∈ req.header, canonicalMIMEHeaderKey kv.1 = kv.1)
    (hnodup : (req.header.map Prod.fst).Nodup) :
    (outboundRequest targetScheme targetHost path req).header =
      req.header.map (fun kv => (kv.1, kv.2 ++ kv.2)) := by
  have h := Director_fold req.header [] 
    { cloneRequest req with scheme := targetScheme, urlHost := targetHost, urlPath := path,
                            host := targetHost }
    rfl hcanon (by simpa using hnodup)
  simpa [outboundRequest, Director] using h

/-! ## The rate limiter -/

/-- C1: when the read of the client's counter succeeds with a value of at
least 100, RateLimit writes status 429 with the body "Rate limit exceeded"
and retry_after 60, aborts, never calls the next handler (the outcome is
the same for every continuation and for every chain that follows), sends
only the read to the store and leaves the store as it was. -/
theorem RateLimit_rejects_at_limit (env : Env) (c : Context) (next : Context → Context)
    (n : Int)
    (hread : getInt env.getFails c.store env.now (rateLimitKey c.request.clientIP) = (n, none))
    (hn : 100 ≤ n) :
    (RateLimit env next c).written = c.written ++
        [(429, Body.json [("error", .str "Rate limit exceeded"), ("retry_after", .num 60)])] ∧
    (RateLimit env next c).aborted = true ∧
    (RateLimit env next c).store = c.store ∧
    (RateLimit env next c).trace =
        c.trace ++ [Event.redisGet (rateLimitKey c.request.clientIP)] ∧
    (∀ other : Context → Context, RateLimit env other c = RateLimit env next c) ∧
    (∀ rest : List HandlerFunc, runChain (RateLimit env :: rest) c = RateLimit env next c) := by
  have key : ∀ k : Context → Context, RateLimit env k c =
      ((c.log (.redisGet (rateLimitKey c.request.clientIP))).JSON 429 rateLimitBody).Abort := by
    intro k
    simp [RateLimit, Context.log, hread, hn]
  refine ⟨?_, ?_, ?_, ?_, ?_, ?_⟩
  · rw [key]; rfl
  · rw [key]; rfl
  · rw [key]; rfl
  · rw [key]; rfl
  · intro other; rw [key, key]
  · intro rest
    simp only [runChain]
    rw [key, key]
    simp [Context.Abort]

theorem RateLimit_rejects_at_limit_witness :
    (RateLimit (quietEnv 10) id (newContext sampleRequest fullStore)).written =
        [(429, Body.json [("error", .str "Rate limit exceeded"), ("retry_after", .num 60)])] ∧
    (RateLimit (quietEnv 10) id (newContext sampleRequest fullStore)).store = fullStore :=
  have h := RateLimit_rejects_at_limit (quietEnv 10) (newContext sampleRequest fullStore) id 100 (by decide) (by decide)
  ⟨h.1, h.2.2.1⟩

/-- C2: starting from an absent counter, with a store that never fails and
a counter that is never found expired when a request arrives, the n-th
request of a client is passed on exactly when n is at most 100 (so the
100th is passed on and the 101st rejected), and after k requests the
stored count is min k 100. -/
theorem RateLimit_admits_first_hundred (ip : String) (s : Store) (reqs : List (Env × Request))
    (habsent : s.find (rateLimitKey ip) = none)
    (hclient : ∀ p ∈ reqs, p.2.clientIP = ip)
    (hstore : ∀ p ∈ reqs, p.1.getFails = false ∧ p.1.exec = ExecFault.none)
    (hlive : ∀ k (h : k < reqs.length),
      counterLive (storeAfter s (reqs.take k)) (rateLimitKey ip) (reqs.get ⟨k, h⟩).1.now = true) :
    (∀ n, 1 ≤ n → n ≤ reqs.length → (admittedAt s reqs n = true ↔ n ≤ 100)) ∧
    (100 ≤ reqs.length → admittedAt s reqs 100 = true) ∧
    (101 ≤ reqs.length → admittedAt s reqs 101 = false) ∧
    (∀ k, k ≤ reqs.length →
      storedCount (storeAfter s (reqs.take k)) (rateLimitKey ip) = min (k : Int) 100) := by
  have hinv := counterAt_storeAfter ip s reqs habsent hclient hstore hlive
  have hadm : ∀ n, 1 ≤ n → n ≤ reqs.length → (admittedAt s reqs n = true ↔ n ≤ 100) := by
    intro n h1 hn
    have hlt : n - 1 < reqs.length := by omega
    have hp : reqs.get? (n - 1) = some (reqs.get ⟨n - 1, hlt⟩) := List.get?_eq_get hlt
    have hmem : reqs.get ⟨n - 1, hlt⟩ ∈ reqs := List.get_mem _ _ _
    have hstep := (limitStep_counter _ (n - 1) _ (reqs.get ⟨n - 1, hlt⟩) (hinv (n - 1) (by omega))
      (by rw [hclient _ hmem]) (hstore _ hmem).1 (hstore _ hmem).2 (by
        intro e he
        have := hlive (n - 1) hlt
        simpa [counterLive, he] using this)).2
    simp only [admittedAt, hp]
    rw [hstep]; omega
  refine ⟨hadm, ?_, ?_, ?_⟩
  · intro h; exact (hadm 100 (by omega) h).2 (by omega)
  · intro h
    have := hadm 101 (by omega) h
    cases hb : admittedAt s reqs 101
    · rfl
    · rw [hb] at this; have := this.1 rfl; omega
  · intro k hk
    rcases hinv k hk with ⟨h0, hnone⟩ | ⟨_, d, hsome⟩
    · subst h0
      simp only [List.take_zero] at hnone ⊢
      simp [storedCount, hnone]
    · simp [storedCount, hsome]

theorem RateLimit_admits_first_hundred_witness :
    admittedAt [] burst 100 = true ∧ admittedAt [] burst 101 = false ∧
    storedCount (storeAfter [] (burst.take 101)) (rateLimitKey "10.0.0.1") = 100 :=
  have h := RateLimit_admits_first_hundred "10.0.0.1" [] burst (by decide!) (by decide!)
    (by decide!) (by decide!)
  ⟨h.2.1 (by decide!), h.2.2.1 (by decide!), h.2.2.2 101 (by decide!)⟩

/-- C3: RateLimit fails open. When the read of the counter fails with an
error other than key-absent, the next handler is invoked on a context in
which only the read was sent to the store: no increment, no response, no
abort. When the read gives a count below 100 (or the key is absent) and the
increment pipeline reports an error, the next handler is invoked all the
same. In both cases the limiter itself writes no response. -/
theorem RateLimit_fails_open (env : Env) (c : Context) (next : Context → Context) :
    ((getInt env.getFails c.store env.now (rateLimitKey c.request.clientIP)).2 = some .other →
      RateLimit env next c = next (c.log (.redisGet (rateLimitKey c.request.clientIP)))) ∧
    (((getInt env.getFails c.store env.now (rateLimitKey c.request.clientIP)).2 = none ∨
        (getInt env.getFails c.store env.now (rateLimitKey c.request.clientIP)).2 = some .Nil) →
      (getInt env.getFails c.store env.now (rateLimitKey c.request.clientIP)).1 < 100 →
      (execIncrExpire env.exec c.store env.now (rateLimitKey c.request.clientIP) 60).2 ≠ none →
      RateLimit env next c = next
        { ((c.log (.redisGet (rateLimitKey c.request.clientIP))).log
              (.redisIncr (rateLimitKey c.request.clientIP))).log
              (.redisExpire (rateLimitKey c.request.clientIP) 60) with
          store := (execIncrExpire env.exec c.store env.now
            (rateLimitKey c.request.clientIP) 60).1 }) := by
  constructor
  · intro h
    simp [RateLimit, Context.log, h]
  · intro h hlt hexec
    have h1 : ¬ ((getInt env.getFails c.store env.now (rateLimitKey c.request.clientIP)).2 ≠ none ∧
        (getInt env.getFails c.store env.now (rateLimitKey c.request.clientIP)).2 ≠ some .Nil) := by
      rcases h with h | h <;> simp [h]
    have h2 : ¬ ((getInt env.getFails c.store env.now (rateLimitKey c.request.clientIP)).1 ≥ 100) := by
      omega
    simp only [RateLimit, Context.log]
    rw [if_neg h1, if_neg h2]
    simp

theorem RateLimit_fails_open_witness :
    RateLimit (downEnv 10) (fun d => d.log (.handler .Metrics)) (newContext sampleRequest fullStore) =
      (fun d => d.log (.handler .Metrics))
        ((newContext sampleRequest fullStore).log (.redisGet "rate_limit:10.0.0.1")) ∧
    (RateLimit (lossyEnv 10) (fun d => d.log (.handler .Metrics))
        (newContext sampleRequest [])).trace =
      [.redisGet "rate_limit:10.0.0.1", .redisIncr "rate_limit:10.0.0.1",
        .redisExpire "rate_limit:10.0.0.1" 60, .handler .Metrics] :=
  ⟨(RateLimit_fails_open (downEnv 10) (newContext sampleRequest fullStore)
      (fun d => d.log (.handler .Metrics))).1 (by decide),
   congrArg Context.trace
     ((RateLimit_fails_open (lossyEnv 10) (newContext sampleRequest [])
        (fun d => d.log (.handler .Metrics))).2 (by decide) (by decide) (by decide))⟩

/-! ## The route table and the order of the chain -/

/-- C4: in the route table of SetupRoutes the routes under /api/v1 without
JWTAuth in their chain are exactly the three public auth routes, every
other route under /api/v1 has JWTAuth, the routes with AdminOnly are
exactly the three admin routes, and wherever AdminOnly occurs JWTAuth
occurs before it. -/
theorem SetupRoutes_protection_levels :
    ((SetupRoutes.routes.filter
        (fun r => underV1 r.path && !r.handlers.contains .JWTAuth)).map RouteInfo.key =
      [("POST", "/api/v1/auth/register"), ("POST", "/api/v1/auth/login"),
       ("POST", "/api/v1/auth/refresh")]) ∧
    (∀ r ∈ SetupRoutes.routes, underV1 r.path = true →
      r.key ∉ [("POST", "/api/v1/auth/register"), ("POST", "/api/v1/auth/login"),
               ("POST", "/api/v1/auth/refresh")] →
      Handler.JWTAuth ∈ r.handlers) ∧
    ((SetupRoutes.routes.filter (fun r => r.handlers.contains .AdminOnly)).map RouteInfo.key =
      [("GET", "/api/v1/admin/stats"), ("GET", "/api/v1/admin/users"),
       ("PUT", "/api/v1/admin/users/:id/status")]) ∧
    (∀ r ∈ SetupRoutes.routes, Handler.AdminOnly ∈ r.handlers →
      Handler.JWTAuth ∈ r.handlers ∧
      r.handlers.indexOf Handler.JWTAuth < r.handlers.indexOf Handler.AdminOnly) := by
  refine ⟨by decide, by decide, by decide, by decide⟩

theorem handlerFunc_RateLimit_reject (g : Gateway) (env : Env) (c : Context)
    (next : Context → Context) (n : Int)
    (hread : getInt env.getFails c.store env.now (rateLimitKey c.request.clientIP) = (n, none))
    (hn : 100 ≤ n) :
    g.handlerFunc env .RateLimit next c =
      { c with
        written := c.written ++ [(429, Body.json rateLimitBody)]
        aborted := true
        trace := c.trace ++ [.handler .RateLimit,
          .redisGet (rateLimitKey c.request.clientIP)] } := by
  simp [Gateway.handlerFunc, RateLimit, Context.log, hread, hn, Context.JSON, Context.Abort]

theorem runChain_global_reject (g : Gateway) (env : Env) (rest : List Handler)
    (req : Request) (store : Store) (ps : List (String × String)) (n : Int)
    (hread : getInt env.getFails store env.now (rateLimitKey req.clientIP) = (n, none))
    (hn : 100 ≤ n) :
    runChain ((Handler.Recovery :: .Logger :: .CORS :: .RateLimit :: rest).map (g.handlerFunc env))
        { newContext req store with params := ps } =
      { newContext req store with
        params := ps
        written := [(429, Body.json rateLimitBody)]
        aborted := true
        trace := [.handler .Recovery, .handler .Logger, .handler .CORS, .handler .RateLimit,
          .redisGet (rateLimitKey req.clientIP)] } := by
  have hrl := fun next => handlerFunc_RateLimit_reject g env
    { newContext req store with
      params := ps
      trace := [.handler .Recovery, .handler .Logger, .handler .CORS] } next n hread hn
  simp only [List.map_cons, runChain]
  simp only [Gateway.handlerFunc, Recovery, Logger, CORS, Context.log, newContext,
    List.nil_append, List.cons_append, Bool.false_eq_true, if_false] at hrl ⊢
  simp [hrl]

/-- C5, as the code has it: with the chain that SetupRoutes configures, a
request whose client counter reads at least 100 and which the router does
not answer itself with a trailing-slash redirect gets the 429 rejection
whatever its method, path and headers, whether or not a route matches: only
Recovery, Logger, CORS and RateLimit are entered and the store is left as it
was. Redirected or not, such a request never reaches JWTAuth, AdminOnly or
proxyToService. -/
theorem serve_rate_limit_first (g : Gateway) (env : Env) (req : Request) (store : Store)
    (n : Int)
    (hread : getInt env.getFails store env.now (rateLimitKey req.clientIP) = (n, none))
    (hn : 100 ≤ n) :
    (SetupRoutes.redirectsTrailingSlash req.method req.path = false →
      (g.serve env req store).written =
        [(429, Body.json [("error", .str "Rate limit exceeded"), ("retry_after", .num 60)])] ∧
      (g.serve env req store).trace =
        [.handler .Recovery, .handler .Logger, .handler .CORS, .handler .RateLimit,
          .redisGet (rateLimitKey req.clientIP)]) ∧
    Event.handler .JWTAuth ∉ (g.serve env req store).trace ∧
    Event.handler .AdminOnly ∉ (g.serve env req store).trace ∧
    (∀ serviceName path, Event.proxyToService serviceName path ∉ (g.serve env req store).trace) ∧
    (g.serve env req store).store = store := by
  have hroutes : ∀ r ∈ SetupRoutes.routes,
      r.handlers.take 4 = [Handler.Recovery, .Logger, .CORS, .RateLimit] := by
    decide
  have hno : SetupRoutes.allNoRoute =
      Handler.Recovery :: .Logger :: .CORS :: .RateLimit :: [.Metrics] := by decide
  have key : (SetupRoutes.redirectsTrailingSlash req.method req.path = false →
      ∃ ps, g.serve env req store =
        { newContext req store with
          params := ps
          written := [(429, Body.json rateLimitBody)]
          aborted := true
          trace := [.handler .Recovery, .handler .Logger, .handler .CORS, .handler .RateLimit,
            .redisGet (rateLimitKey req.clientIP)] }) ∧
      (SetupRoutes.redirectsTrailingSlash req.method req.path = true →
        g.serve env req store =
          { newContext req store with
            written := [(redirectCode req.method,
              Body.text (toggleTrailingSlash req.path))] }) := by
    unfold Gateway.serve Engine.ServeHTTP
    cases hv : SetupRoutes.getValue req.method req.path with
    | some rp =>
      obtain ⟨r, ps⟩ := rp
      have hmem := (getValue_sound _ _ _ _ _ hv).1
      have hsplit : r.handlers =
          Handler.Recovery :: .Logger :: .CORS :: .RateLimit :: r.handlers.drop 4 := by
        conv_lhs => rw [← List.take_append_drop 4 r.handlers, hroutes r hmem]
        rfl
      constructor
      · intro _
        refine ⟨ps, ?_⟩
        simp only []
        rw [hsplit]
        exact runChain_global_reject g env _ req store ps n hread hn
      · intro hred
        simp [Engine.redirectsTrailingSlash, hv] at hred
    | none =>
      constructor
      · intro hred
        refine ⟨[], ?_⟩
        simp only [hred]
        rw [hno]
        have h := runChain_global_reject g env [.Metrics] req store [] n hread hn
        have h0 : ({ newContext req store with params := [] } : Context) =
            newContext req store := rfl
        rw [h0] at h
        rw [h]
        simp
      · intro hred
        simp only [hred, if_true]
  cases hred : SetupRoutes.redirectsTrailingSlash req.method req.path with
  | false =>
    obtain ⟨ps, hserve⟩ := key.1 hred
    rw [hserve]
    simp [newContext, rateLimitBody]
  | true =>
    rw [key.2 hred]
    simp [newContext]

theorem serve_rate_limit_first_witness :
    ((NewGateway sampleConfig).serve (quietEnv 10) oddRequest fullStore).written =
      [(429, Body.json [("error", .str "Rate limit exceeded"), ("retry_after", .num 60)])] ∧
    Event.handler .JWTAuth ∉
      ((NewGateway sampleConfig).serve (quietEnv 10) oddRequest fullStore).trace :=
  have h := serve_rate_limit_first (NewGateway sampleConfig) (quietEnv 10) oddRequest fullStore
    100 (by decide) (by decide)
  ⟨(h.1 (by decide)).1, h.2.1⟩

/-- C5, as stated, fails: GET /api/v1/users/ matches no route but
/api/v1/users does, so the router answers 301 itself. With the counter of
the client at 100 the response is that redirect, not the 429 rejection, and
no handler is entered: the rate limiter does not run. -/
theorem serve_redirect_skips_limiter :
    getInt (quietEnv 10).getFails fullStore (quietEnv 10).now
        (rateLimitKey slashRequest.clientIP) = (100, none) ∧
    ((NewGateway sampleConfig).serve (quietEnv 10) slashRequest fullStore).written =
      [(301, Body.text "/api/v1/users")] ∧
    ((NewGateway sampleConfig).serve (quietEnv 10) slashRequest fullStore).trace = [] := by
  decide

/-! ## Dispatch and forwarding -/

theorem users_segments (id : String) (hid : '/' ∉ id.data) :
    segments ("/api/v1/users/" ++ id) = ["", "api", "v1", "users", id] := by
  have hj : "/api/v1/users/" ++ id = joinSegs ["", "api", "v1", "users", id] := by
    cases id; rfl
  rw [hj]
  apply segments_joinSegs _ (by simp)
  intro s hs
  simp only [List.mem_cons, List.mem_singleton, List.not_mem_nil, or_false] at hs
  rcases hs with rfl | rfl | rfl | rfl | rfl
  · decide
  · decide
  · decide
  · decide
  · exact hid

/-- C6: for every route registered under /api/v1 and every assignment of
non-empty, slash-free segments to its parameters, the lookup of the
resulting request path selects a route whose handler calls proxyToService
with that same request path as target path; in particular GET, PUT and
DELETE /api/v1/users/<id> select the users route, bind id and call
proxyToService with "user-service" and "/api/v1/users/<id>". -/
theorem dispatch_forwards_request_path :
    (∀ r ∈ SetupRoutes.routes, underV1 r.path = true →
      ∀ assign : String → String, (∀ name, assign name ≠ "" ∧ '/' ∉ (assign name).data) →
      ∃ selected ps h serviceName,
        SetupRoutes.getValue r.method (instantiate r.path assign) = some (selected, ps) ∧
        selected.handlers.getLast? = some h ∧
        ∀ (g : Gateway) (env : Env) (next : Context → Context) (c : Context),
          c.params = ps →
          g.handlerFunc env h next c =
            g.proxyToService env (c.log (.handler h)) serviceName
              (instantiate r.path assign)) ∧
    (∀ id : String, id ≠ "" → '/' ∉ id.data →
      ∀ httpMethod ∈ ["GET", "PUT", "DELETE"],
      ∃ selected h,
        SetupRoutes.getValue httpMethod ("/api/v1/users/" ++ id) =
          some (selected, [("id", id)]) ∧
        selected.path = "/api/v1/users/:id" ∧
        selected.handlers.getLast? = some h ∧
        ∀ (g : Gateway) (env : Env) (next : Context → Context) (c : Context),
          c.params = [("id", id)] →
          g.handlerFunc env h next c =
            g.proxyToService env (c.log (.handler h)) "user-service"
              ("/api/v1/users/" ++ id)) := by
  have hnames : ∀ r ∈ SetupRoutes.routes, ∀ n ∈ paramNames (parsePattern r.path), n = "id" := by
    decide
  have hnodup : ∀ r ∈ SetupRoutes.routes, (paramNames (parsePattern r.path)).Nodup := by
    decide
  have hv1 : ∀ r ∈ SetupRoutes.routes, underV1 r.path = true →
      (parsePattern r.path).take 2 = [.static "", .static "api"] := by
    decide
  have hhealth : ∀ r ∈ SetupRoutes.routes,
      parsePattern r.path = [.static "", .static "health"] ∨ underV1 r.path = true := by
    decide
  constructor
  · intro r hr hv assign hassign
    have hseg := segments_instantiate r.path assign (fun n => (hassign n).2)
    have hmatch : matchPattern (parsePattern r.path) (segments (instantiate r.path assign)) =
        some (boundParams assign (parsePattern r.path)) := by
      rw [hseg]
      exact matchPattern_fill _ _ (fun n _ => (hassign n).1)
    have hsome := getValue_complete SetupRoutes r.method _ r _ hr rfl hmatch
    obtain ⟨⟨selected, ps⟩, hget⟩ := Option.isSome_iff_exists.1 hsome
    obtain ⟨hsel, _, hm⟩ := getValue_sound _ _ _ _ _ hget
    have hfill := matchPattern_lookup _ _ _ hm (hnodup selected hsel)
    have hvsel : underV1 selected.path = true := by
      rcases hhealth selected hsel with hh | hh
      · exfalso
        rw [hh] at hfill
        have h2 : (segments (instantiate r.path assign)).take 2 = ["", "health"] := by
          rw [← hfill]; rfl
        rw [hseg] at h2
        obtain ⟨rest, hrest⟩ : ∃ rest, parsePattern r.path =
            .static "" :: .static "api" :: rest := by
          refine ⟨(parsePattern r.path).drop 2, ?_⟩
          conv_lhs => rw [← List.take_append_drop 2 (parsePattern r.path), hv1 r hr hv]
          rfl
        rw [hrest] at h2
        simp [fillPattern] at h2
      · exact hh
    obtain ⟨h, serviceName, hlast, htarget⟩ :=
      route_target selected hsel hvsel ((ps.lookup "id").getD "")
    refine ⟨selected, ps, h, serviceName, hget, hlast, ?_⟩
    intro g env next c hc
    apply handlerFunc_of_target
    have hparam : c.Param = fun n => (ps.lookup n).getD "" := by
      funext n; simp [Context.Param, hc]
    have hcongr : fillPattern (fun _ => (ps.lookup "id").getD "") (parsePattern selected.path) =
        fillPattern (fun n => (ps.lookup n).getD "") (parsePattern selected.path) :=
      fillPattern_congr _ _ _ (fun n hn => by rw [hnames selected hsel n hn])
    rw [hparam, target_only_id, htarget, hcongr, hfill, joinSegs_segments]
  · intro id hne hslash httpMethod hmem
    have hseg := users_segments id hslash
    obtain ⟨l⟩ := id
    cases l with
    | nil => exact absurd rfl hne
    | cons ch tl =>
      simp only [List.mem_cons, List.mem_singleton, List.not_mem_nil, or_false] at hmem
      rcases hmem with rfl | rfl | rfl
      · refine ⟨⟨"GET", "/api/v1/users/:id", [.Recovery, .Logger, .CORS, .RateLimit, .Metrics,
          .JWTAuth, .handleGetUser]⟩, .handleGetUser, ?_, rfl, rfl, ?_⟩
        · unfold Engine.getValue; rw [hseg]; rfl
        · intro g env next c hc
          apply handlerFunc_of_target
          simp [Handler.target, Context.Param, hc]
      · refine ⟨⟨"PUT", "/api/v1/users/:id", [.Recovery, .Logger, .CORS, .RateLimit, .Metrics,
          .JWTAuth, .handleUpdateUser]⟩, .handleUpdateUser, ?_, rfl, rfl, ?_⟩
        · unfold Engine.getValue; rw [hseg]; rfl
        · intro g env next c hc
          apply handlerFunc_of_target
          simp [Handler.target, Context.Param, hc]
      · refine ⟨⟨"DELETE", "/api/v1/users/:id", [.Recovery, .Logger, .CORS, .RateLimit, .Metrics,
          .JWTAuth, .handleDeleteUser]⟩, .handleDeleteUser, ?_, rfl, rfl, ?_⟩
        · unfold Engine.getValue; rw [hseg]; rfl
        · intro g env next c hc
          apply handlerFunc_of_target
          simp [Handler.target, Context.Param, hc]

theorem dispatch_forwards_request_path_witness :
    (∃ selected h,
      SetupRoutes.getValue "GET" ("/api/v1/users/" ++ "42") = some (selected, [("id", "42")]) ∧
      selected.path = "/api/v1/users/:id" ∧
      selected.handlers.getLast? = some h ∧
      ∀ (g : Gateway) (env : Env) (next : Context → Context) (c : Context),
        c.params = [("id", "42")] →
        g.handlerFunc env h next c =
          g.proxyToService env (c.log (.handler h)) "user-service" ("/api/v1/users/" ++ "42")) ∧
    (∃ selected ps h serviceName,
      SetupRoutes.getValue "GET" (instantiate "/api/v1/properties/:id" (fun _ => "search")) =
        some (selected, ps) ∧
      selected.handlers.getLast? = some h ∧
      ∀ (g : Gateway) (env : Env) (next : Context → Context) (c : Context),
        c.params = ps →
        g.handlerFunc env h next c =
          g.proxyToService env (c.log (.handler h)) serviceName
            (instantiate "/api/v1/properties/:id" (fun _ => "search"))) :=
  ⟨dispatch_forwards_request_path.2 "42" (by decide) (by decide) "GET" (by decide),
   dispatch_forwards_request_path.1
     { method := "GET", path := "/api/v1/properties/:id",
       handlers := [.Recovery, .Logger, .CORS, .RateLimit, .Metrics, .JWTAuth,
         .handleGetProperty] }
     (by decide) (by decide) (fun _ => "search")
     (fun _ => show "search" ≠ "" ∧ '/' ∉ ("search").data from by decide)⟩

/-- C7: for a service name that is not one of the nine configured names
GetClient returns the nil client, and proxyToService answers 500 with the
body "Service unavailable"; it records nothing but its own call, so
ProxyRequest is not called and no outbound request is made. -/
theorem proxyToService_unknown_service (g : Gateway) (env : Env) (c : Context)
    (serviceName path : String)
    (h : serviceName ∉ ["auth-service", "user-service", "property-service", "tenant-service",
      "invoice-service", "notification-service", "report-service", "admin-service",
      "caretaker-service"]) :
    g.clients.GetClient serviceName = none ∧
    (g.proxyToService env c serviceName path).written =
      c.written ++ [(500, Body.json [("error", .str "Service unavailable")])] ∧
    (g.proxyToService env c serviceName path).trace =
      c.trace ++ [.proxyToService serviceName path] ∧
    g.proxyToService env c serviceName path =
      (c.log (.proxyToService serviceName path)).JSON 500
        [("error", .str "Service unavailable")] := by
  simp only [List.mem_cons, List.mem_singleton, List.not_mem_nil, or_false, not_or] at h
  obtain ⟨h1, h2, h3, h4, h5, h6, h7, h8, h9⟩ := h
  have hcfg : g.clients.getServiceConfig serviceName = none := by
    simp [Manager.getServiceConfig, h1, h2, h3, h4, h5, h6, h7, h8, h9]
  have hnil : g.clients.GetClient serviceName = none := by
    unfold Manager.GetClient
    split
    · rfl
    · rw [hcfg]
  have hp : g.proxyToService env c serviceName path =
      (c.log (.proxyToService serviceName path)).JSON 500
        [("error", .str "Service unavailable")] := by
    unfold Gateway.proxyToService
    simp only [hnil]
  refine ⟨hnil, ?_, ?_, hp⟩
  · rw [hp]; rfl
  · rw [hp]; rfl

theorem proxyToService_unknown_service_witness :
    (NewGateway sampleConfig).clients.GetClient "billing-service" = none ∧
    ((NewGateway sampleConfig).proxyToService (quietEnv 0) (newContext sampleRequest [])
        "billing-service" "/api/v1/bills").written =
      [(500, Body.json [("error", .str "Service unavailable")])] :=
  have h := proxyToService_unknown_service (NewGateway sampleConfig) (quietEnv 0)
    (newContext sampleRequest []) "billing-service" "/api/v1/bills" (by decide)
  ⟨h.1, h.2.1⟩

/-- C8: on an inbound request with the header Authorization: Bearer t, the
outbound request after the director has run carries that value twice: the
proxy's clone already holds the inbound header when the director adds every
inbound value again. -/
theorem outboundRequest_doubles_header :
    bearerRequest.header.values "Authorization" = ["Bearer t"] ∧
    (outboundRequest "http" "user:8082" "/api/v1/users" bearerRequest).header.values
        "Authorization" = ["Bearer t", "Bearer t"] ∧
    (outboundRequest "http" "user:8082" "/api/v1/users" bearerRequest).header.values
        "Accept" = ["text/html", "application/json", "text/html", "application/json"] ∧
    (outboundRequest "http" "user:8082" "/api/v1/users" bearerRequest).header.values
        "Authorization" ≠ bearerRequest.header.values "Authorization" := by
  decide

/-! ## Authentication and authorization -/

theorem bearerToken_eq_some (authHeader token : String) :
    bearerToken authHeader = some token ↔ authHeader = "Bearer " ++ token := by
  obtain ⟨l⟩ := authHeader
  obtain ⟨m⟩ := token
  have happ : ("Bearer " ++ (String.mk m)) =
      String.mk ('B' :: 'e' :: 'a' :: 'r' :: 'e' :: 'r' :: ' ' :: m) := rfl
  rw [happ]
  unfold bearerToken
  split
  · rename_i tok heq
    simp only at heq
    subst heq
    simp [String.ext_iff]
  · rename_i hno
    simp only [false_iff, reduceCtorEq]
    intro heq
    simp only [String.ext_iff] at heq
    exact hno m heq

/-- C9: JWTAuth answers 401 "Authorization header required" when the
Authorization header is absent or empty, 401 "Bearer token required" when it
is present but not of the form Bearer <token> (as for "InvalidToken"), 401
"Invalid token" when the form is right but the token does not validate (as
for "Bearer invalid-token" under a validator that rejects it), each time
without invoking the downstream handler; only a token that validates
reaches the downstream handler, with the identity of its claims attached. -/
theorem JWTAuth_contract (env : Env) (secret : String) (next : Context → Context)
    (c : Context) :
    (c.GetHeader "Authorization" = "" →
      JWTAuth env secret next c =
        (c.JSON 401 [("error", .str "Authorization header required")]).Abort) ∧
    (c.GetHeader "Authorization" ≠ "" →
      (∀ token, c.GetHeader "Authorization" ≠ "Bearer " ++ token) →
      JWTAuth env secret next c =
        (c.JSON 401 [("error", .str "Bearer token required")]).Abort) ∧
    (∀ token, c.GetHeader "Authorization" = "Bearer " ++ token →
      env.verifyToken secret token = none →
      JWTAuth env secret next c = (c.JSON 401 [("error", .str "Invalid token")]).Abort) ∧
    (∀ token claims, c.GetHeader "Authorization" = "Bearer " ++ token →
      env.verifyToken secret token = some claims →
      JWTAuth env secret next c =
        next (((c.Set "user_id" claims.sub).Set "user_email" claims.email).Set
          "user_role" claims.role)) ∧
    (∀ token, "InvalidToken" ≠ "Bearer " ++ token) := by
  have hne : ∀ token : String, "Bearer " ++ token ≠ "" := by
    intro token h
    have := congrArg String.length h
    simp only [String.length_append] at this
    have h7 : ("Bearer ").length = 7 := by decide
    have h0 : ("").length = 0 := by decide
    omega
  refine ⟨?_, ?_, ?_, ?_, ?_⟩
  · intro h
    simp [JWTAuth, h]
  · intro h hform
    have hb : bearerToken (c.GetHeader "Authorization") = none := by
      cases hbt : bearerToken (c.GetHeader "Authorization") with
      | none => rfl
      | some t => exact absurd ((bearerToken_eq_some _ _).1 hbt) (hform t)
    simp [JWTAuth, h, hb]
  · intro token hform hver
    have hb := (bearerToken_eq_some _ _).2 hform
    have h : c.GetHeader "Authorization" ≠ "" := by rw [hform]; exact hne token
    simp [JWTAuth, h, hb, hver]
  · intro token claims hform hver
    have hb := (bearerToken_eq_some _ _).2 hform
    have h : c.GetHeader "Authorization" ≠ "" := by rw [hform]; exact hne token
    simp [JWTAuth, h, hb, hver]
  · intro token h
    have hsome := (bearerToken_eq_some "InvalidToken" token).2 h
    have hnone : bearerToken "InvalidToken" = none := by decide
    rw [hnone] at hsome
    cases hsome

theorem JWTAuth_contract_witness :
    (JWTAuth (quietEnv 0) "test-secret" id (newContext (testRequest "") [])).written =
      [(401, Body.json [("error", .str "Authorization header required")])] ∧
    (JWTAuth (quietEnv 0) "test-secret" id (newContext (testRequest "InvalidToken") [])).written =
      [(401, Body.json [("error", .str "Bearer token required")])] ∧
    (JWTAuth (quietEnv 0) "test-secret" id
        (newContext (testRequest "Bearer invalid-token") [])).written =
      [(401, Body.json [("error", .str "Invalid token")])] :=
  ⟨congrArg Context.written
      ((JWTAuth_contract (quietEnv 0) "test-secret" id (newContext (testRequest "") [])).1
        (by decide)),
   congrArg Context.written
      ((JWTAuth_contract (quietEnv 0) "test-secret" id
        (newContext (testRequest "InvalidToken") [])).2.1 (by decide)
        (JWTAuth_contract (quietEnv 0) "test-secret" id
          (newContext (testRequest "InvalidToken") [])).2.2.2.2),
   congrArg Context.written
      ((JWTAuth_contract (quietEnv 0) "test-secret" id
        (newContext (testRequest "Bearer invalid-token") [])).2.2.1 "invalid-token"
        (by decide) rfl)⟩

/-- C10: AdminOnly passes the request on exactly when the role under
"user_role" is "admin"; any other role, the empty role and a context
without a role end in 403 "Admin access required" without the downstream
handler being invoked. -/
theorem AdminOnly_contract (next : Context → Context) (c : Context) :
    (c.Get "user_role" = some "admin" → AdminOnly next c = next c) ∧
    (c.Get "user_role" ≠ some "admin" →
      AdminOnly next c = (c.JSON 403 [("error", .str "Admin access required")]).Abort) ∧
    (c.Get "user_role" = none →
      AdminOnly next c = (c.JSON 403 [("error", .str "Admin access required")]).Abort) ∧
    (c.Get "user_role" = some "" →
      AdminOnly next c = (c.JSON 403 [("error", .str "Admin access required")]).Abort) := by
  have h2 : c.Get "user_role" ≠ some "admin" →
      AdminOnly next c = (c.JSON 403 [("error", .str "Admin access required")]).Abort := by
    intro h; simp [AdminOnly, h]
  refine ⟨?_, h2, ?_, ?_⟩
  · intro h; simp [AdminOnly, h]
  · intro h; exact h2 (by rw [h]; simp)
  · intro h; exact h2 (by rw [h]; decide)

theorem AdminOnly_contract_witness :
    (AdminOnly (fun d => d.log (.handler .Health)) (roleContext "admin")).trace =
      [.handler .Health] ∧
    (AdminOnly (fun d => d.log (.handler .Health)) (roleContext "user")).written =
      [(403, Body.json [("error", .str "Admin access required")])] ∧
    (AdminOnly (fun d => d.log (.handler .Health)) (roleContext "")).written =
      [(403, Body.json [("error", .str "Admin access required")])] ∧
    (AdminOnly (fun d => d.log (.handler .Health)) (newContext (testRequest "") [])).trace = [] :=
  ⟨congrArg Context.trace
      ((AdminOnly_contract (fun d => d.log (.handler .Health)) (roleContext "admin")).1
        (by decide)),
   congrArg Context.written
      ((AdminOnly_contract (fun d => d.log (.handler .Health)) (roleContext "user")).2.1
        (by decide)),
   congrArg Context.written
      ((AdminOnly_contract (fun d => d.log (.handler .Health)) (roleContext "")).2.2.2
        (by decide)),
   congrArg Context.trace
      ((AdminOnly_contract (fun d => d.log (.handler .Health))
        (newContext (testRequest "") [])).2.2.1 (by decide))⟩

/-! ## The counter key -/

theorem rateLimitKey_injective (ip1 ip2 : String) (h : rateLimitKey ip1 = rateLimitKey ip2) :
    ip1 = ip2 := by
  unfold rateLimitKey at h
  have hd := congrArg String.data h
  simp only [String.data_append] at hd
  exact String.ext (List.append_cancel_left hd)

theorem limiterKeys_cases (env : Env) (req : Request) (store : Store) :
    limiterKeys env req store = [rateLimitKey req.clientIP] ∨
    limiterKeys env req store =
      [rateLimitKey req.clientIP, rateLimitKey req.clientIP, rateLimitKey req.clientIP] := by
  unfold limiterKeys RateLimit
  simp only [Context.log, newContext, List.nil_append]
  split
  · left; rfl
  · split
    · left; rfl
    · right
      split <;> rfl

/-- C11, as the code has it: the key RateLimit reads and increments is
determined by the client identifier alone. For one client every request
uses the same key whatever its time, and two requests from different
clients always use different keys. -/
theorem limiterKeys_by_client :
    (∀ (env : Env) (req : Request) (store : Store),
      limiterKeys env req store ≠ [] ∧
      ∀ key ∈ limiterKeys env req store, key = rateLimitKey req.clientIP) ∧
    (∀ (env1 env2 : Env) (req1 req2 : Request) (store1 store2 : Store),
      req1.clientIP = req2.clientIP →
      ∀ key1 ∈ limiterKeys env1 req1 store1, ∀ key2 ∈ limiterKeys env2 req2 store2,
        key1 = key2) ∧
    (∀ (env1 env2 : Env) (req1 req2 : Request) (store1 store2 : Store),
      req1.clientIP ≠ req2.clientIP →
      ∀ key1 ∈ limiterKeys env1 req1 store1, ∀ key2 ∈ limiterKeys env2 req2 store2,
        key1 ≠ key2) := by
  have hall : ∀ (env : Env) (req : Request) (store : Store),
      limiterKeys env req store ≠ [] ∧
      ∀ key ∈ limiterKeys env req store, key = rateLimitKey req.clientIP := by
    intro env req store
    rcases limiterKeys_cases env req store with h | h <;> rw [h] <;> simp
  refine ⟨hall, ?_, ?_⟩
  · intro env1 env2 req1 req2 store1 store2 hip key1 h1 key2 h2
    rw [(hall env1 req1 store1).2 key1 h1, (hall env2 req2 store2).2 key2 h2, hip]
  · intro env1 env2 req1 req2 store1 store2 hip key1 h1 key2 h2 heq
    rw [(hall env1 req1 store1).2 key1 h1, (hall env2 req2 store2).2 key2 h2] at heq
    exact hip (rateLimitKey_injective _ _ heq)

theorem limiterKeys_by_client_witness :
    (∀ key1 ∈ limiterKeys (quietEnv 0) sampleRequest [],
      ∀ key2 ∈ limiterKeys (quietEnv 120) sampleRequest fullStore, key1 = key2) ∧
    (∀ key1 ∈ limiterKeys (quietEnv 0) sampleRequest [],
      ∀ key2 ∈ limiterKeys (quietEnv 0) oddRequest [], key1 = key2) ∧
    (∀ key1 ∈ limiterKeys (quietEnv 0) sampleRequest [],
      ∀ key2 ∈ limiterKeys (quietEnv 0) (testRequest "") [], key1 ≠ key2) :=
  ⟨limiterKeys_by_client.2.1 (quietEnv 0) (quietEnv 120) sampleRequest sampleRequest []
      fullStore rfl,
   limiterKeys_by_client.2.1 (quietEnv 0) (quietEnv 0) sampleRequest oddRequest [] [] rfl,
   limiterKeys_by_client.2.2 (quietEnv 0) (quietEnv 0) sampleRequest (testRequest "") [] []
      (by decide)⟩

/-- C11, as stated, fails: two requests of client 10.0.0.1 at the instants 0
and 120 fall in different 60-second windows, yet both read, increment and
expire the one key "rate_limit:10.0.0.1". -/
theorem limiterKeys_ignore_window :
    windowOf 0 ≠ windowOf 120 ∧
    limiterKeys (quietEnv 0) sampleRequest [] =
      ["rate_limit:10.0.0.1", "rate_limit:10.0.0.1", "rate_limit:10.0.0.1"] ∧
    limiterKeys (quietEnv 120) sampleRequest (storeAfter [] [(quietEnv 0, sampleRequest)]) =
      ["rate_limit:10.0.0.1", "rate_limit:10.0.0.1", "rate_limit:10.0.0.1"] := by
  decide

/-! ## Expiry of the counter -/

theorem runLimiter_fst (s : Store) (reqs : List (Env × Request)) :
    (runLimiter s reqs).1 = storeAfter s reqs := by
  unfold runLimiter storeAfter
  generalize (none : Option Nat) = last
  induction reqs generalizing s last with
  | nil => rfl
  | cons p rest ih => simp only [List.foldl_cons]; exact ih _ _

theorem runLimiter_append (s : Store) (reqs : List (Env × Request)) (p : Env × Request) :
    runLimiter s (reqs ++ [p]) =
      ((limitStep (runLimiter s reqs).1 p).1,
       if (limitStep (runLimiter s reqs).1 p).2 then some p.1.now else (runLimiter s reqs).2) := by
  simp [runLimiter, List.foldl_append]

/-- One request of a healthy store on a tracked counter: a request that is
passed on leaves a count between 1 and 100 expiring 60 seconds after it, a
rejected request leaves the store as it was. -/
theorem limitStep_tracked (key : String) (s : Store) (last : Option Nat) (p : Env × Request)
    (hinv : Tracked key s last) (hip : rateLimitKey p.2.clientIP = key)
    (hget : p.1.getFails = false) (hexec : p.1.exec = .none) :
    ((limitStep s p).2 = true →
      ∃ c, 1 ≤ c ∧ c ≤ 100 ∧
        (limitStep s p).1.find key = some { val := .int c, expireAt := some (p.1.now + 60) }) ∧
    ((limitStep s p).2 = false → (limitStep s p).1 = s) := by
  obtain ⟨env, req⟩ := p
  simp only at hip hget hexec
  subst hip
  cases hg : s.get? env.now (rateLimitKey req.clientIP) with
  | none =>
    have hgi : getInt false s env.now (rateLimitKey req.clientIP) = (0, some .Nil) := by
      simp [getInt, hg]
    have hstep := limitStep_admit s env req hget hexec (by simp [hgi]) (by simp [hgi])
    obtain ⟨_, hf⟩ := incr_expire_absent s env.now (rateLimitKey req.clientIP) hg
    rw [hstep]
    exact ⟨fun _ => ⟨1, by omega, by omega, hf⟩, fun h => by simp at h⟩
  | some e =>
    have hfind : s.find (rateLimitKey req.clientIP) = some e := by
      unfold Store.get? at hg
      split at hg
      · rename_i e0 he0
        split at hg
        · cases hg; exact he0
        · cases hg
      · cases hg
    rcases hinv with ⟨_, habs⟩ | ⟨tl, c, _, hc1, hc100, hf⟩
    · rw [habs] at hfind; cases hfind
    · rw [hf] at hfind
      cases hfind
      have hrange : minInt64 ≤ c ∧ c ≤ maxInt64 := by
        simp only [minInt64, maxInt64]; constructor <;> omega
      have hgi : getInt false s env.now (rateLimitKey req.clientIP) = (c, none) := by
        simp only [getInt, hg, atoi, if_pos hrange]; simp
      by_cases hlt : c < 100
      · have hstep := limitStep_admit s env req hget hexec (by simp [hgi]) (by simp [hgi]; omega)
        obtain ⟨_, hf2⟩ := incr_expire_live s env.now (rateLimitKey req.clientIP) _ _ hg
          (by omega) hlt
        rw [hstep]
        exact ⟨fun _ => ⟨c + 1, by omega, by omega, hf2⟩, fun h => by simp at h⟩
      · have hstep := limitStep_reject s env req hget (by simp [hgi]) (by simp [hgi]; omega)
        rw [hstep]
        exact ⟨fun h => by simp at h, fun _ => rfl⟩

theorem tracked_step (key : String) (s : Store) (last : Option Nat) (p : Env × Request)
    (hinv : Tracked key s last) (hip : rateLimitKey p.2.clientIP = key)
    (hget : p.1.getFails = false) (hexec : p.1.exec = .none) :
    Tracked key (limitStep s p).1 (if (limitStep s p).2 then some p.1.now else last) := by
  have h := limitStep_tracked key s last p hinv hip hget hexec
  cases hb : (limitStep s p).2 with
  | true =>
    obtain ⟨c, h1, h100, hf⟩ := h.1 hb
    simp only [if_true]
    exact Or.inr ⟨p.1.now, c, rfl, h1, h100, hf⟩
  | false =>
    rw [h.2 hb]
    simpa using hinv

theorem tracked_runLimiter (ip : String) (s : Store) (reqs : List (Env × Request))
    (habsent : s.find (rateLimitKey ip) = none)
    (hclient : ∀ p ∈ reqs, p.2.clientIP = ip)
    (hstore : ∀ p ∈ reqs, p.1.getFails = false ∧ p.1.exec = ExecFault.none) :
    Tracked (rateLimitKey ip) (runLimiter s reqs).1 (runLimiter s reqs).2 := by
  induction reqs using List.reverseRecOn with
  | nil => exact Or.inl ⟨rfl, habsent⟩
  | append_singleton rest p ih =>
    have ih := ih (fun q hq => hclient q (List.mem_append_left _ hq))
      (fun q hq => hstore q (List.mem_append_left _ hq))
    have hp : p ∈ rest ++ [p] := List.mem_append_right _ (List.mem_singleton_self p)
    rw [runLimiter_append]
    exact tracked_step _ _ _ p ih (by rw [hclient p hp]) (hstore p hp).1 (hstore p hp).2

/-- What the limiter does instead of a fixed window: in a run of a client
against a healthy store that starts without a counter, every request that
is passed on sets the expiry to 60 seconds from its own time and a rejected
request leaves the store as it was; so the next request is passed on, with
the count back at 1, once 60 seconds have elapsed since the last counted
request. -/
theorem counter_resets_after_last_counted (ip : String) (s : Store)
    (reqs : List (Env × Request))
    (habsent : s.find (rateLimitKey ip) = none)
    (hclient : ∀ p ∈ reqs, p.2.clientIP = ip)
    (hstore : ∀ p ∈ reqs, p.1.getFails = false ∧ p.1.exec = ExecFault.none) :
    (∀ k (hk : k < reqs.length),
      (admittedAt s reqs (k + 1) = true →
        ∃ c, (storeAfter s (reqs.take (k + 1))).find (rateLimitKey ip) =
          some { val := .int c, expireAt := some ((reqs.get ⟨k, hk⟩).1.now + 60) }) ∧
      (admittedAt s reqs (k + 1) = false →
        storeAfter s (reqs.take (k + 1)) = storeAfter s (reqs.take k))) ∧
    (∀ tl, lastCountedAt s reqs = some tl →
      ∀ (env : Env) (req : Request), req.clientIP = ip →
        env.getFails = false → env.exec = ExecFault.none → tl + 60 ≤ env.now →
        (limitStep (storeAfter s reqs) (env, req)).2 = true ∧
        storedCount (limitStep (storeAfter s reqs) (env, req)).1 (rateLimitKey ip) = 1) := by
  constructor
  · intro k hk
    have hp : reqs.get? k = some (reqs.get ⟨k, hk⟩) := List.get?_eq_get hk
    have hmem : reqs.get ⟨k, hk⟩ ∈ reqs := List.get_mem _ _ _
    have hinv := tracked_runLimiter ip s (reqs.take k) habsent
      (fun q hq => hclient q (List.mem_of_mem_take hq))
      (fun q hq => hstore q (List.mem_of_mem_take hq))
    rw [runLimiter_fst] at hinv
    have hstep := limitStep_tracked _ _ _ (reqs.get ⟨k, hk⟩) hinv (by rw [hclient _ hmem])
      (hstore _ hmem).1 (hstore _ hmem).2
    have hadm : admittedAt s reqs (k + 1) =
        (limitStep (storeAfter s (reqs.take k)) (reqs.get ⟨k, hk⟩)).2 := by
      simp only [admittedAt, Nat.add_sub_cancel, hp]
    rw [hadm, storeAfter_take_succ s reqs k _ hp]
    refine ⟨fun h => ?_, hstep.2⟩
    obtain ⟨c, _, _, hf⟩ := hstep.1 h
    exact ⟨c, hf⟩
  · intro tl hlast env req hreq hget hexec hlate
    have hinv := tracked_runLimiter ip s reqs habsent hclient hstore
    rw [runLimiter_fst] at hinv
    unfold lastCountedAt at hlast
    rw [hlast] at hinv
    subst hreq
    rcases hinv with ⟨hnone, _⟩ | ⟨tl0, c, hsome, _, _, hf⟩
    · cases hnone
    · cases hsome
      have hg : (storeAfter s reqs).get? env.now (rateLimitKey req.clientIP) = none := by
        have : ¬ env.now < tl + 60 := by omega
        simp [Store.get?, hf, Entry.live, this]
      have hgi : getInt false (storeAfter s reqs) env.now (rateLimitKey req.clientIP) =
          (0, some .Nil) := by
        simp [getInt, hg]
      have hstep := limitStep_admit (storeAfter s reqs) env req hget hexec
        (by simp [hgi]) (by simp [hgi])
      obtain ⟨_, hf1⟩ := incr_expire_absent (storeAfter s reqs) env.now
        (rateLimitKey req.clientIP) hg
      rw [hstep]
      exact ⟨rfl, by simp [storedCount, hf1]⟩

theorem counter_resets_after_last_counted_witness :
    storedCount (storeAfter [] slowBurst) (rateLimitKey "10.0.0.1") = 100 ∧
    lastCountedAt [] slowBurst = some 59 ∧
    (limitStep (storeAfter [] slowBurst) (quietEnv 119, sampleRequest)).2 = true ∧
    storedCount (limitStep (storeAfter [] slowBurst) (quietEnv 119, sampleRequest)).1
      (rateLimitKey "10.0.0.1") = 1 :=
  have h := (counter_resets_after_last_counted "10.0.0.1" [] slowBurst (by decide!)
    (by decide!) (by decide!)).2 59 (by decide!) (quietEnv 119) sampleRequest rfl rfl rfl
    (by decide)
  ⟨by decide!, by decide!, h.1, h.2⟩

/-- C12: the code does not reset the counter when the window that began
with the first counted request has elapsed. Client 10.0.0.1 sends its first
counted request at instant 0 and ninety-nine more at instant 59, so the
counter stands at 100. At instants 60, 61 and 118 the window of the first
request has elapsed, yet the request is rejected and the count is still
100: the key expires at 119, 60 seconds after the last counted request.
Likewise, of one request every 59 seconds the 101st, at instant 5900, is
rejected although only two requests fall in the preceding minute. -/
theorem counter_outlives_first_window :
    (limitStep [] (quietEnv 0, sampleRequest)).2 = true ∧
    storedCount (storeAfter [] slowBurst) (rateLimitKey "10.0.0.1") = 100 ∧
    (storeAfter [] slowBurst).find (rateLimitKey "10.0.0.1") =
      some { val := .int 100, expireAt := some 119 } ∧
    (limitStep (storeAfter [] slowBurst) (quietEnv 60, sampleRequest)).2 = false ∧
    storedCount (limitStep (storeAfter [] slowBurst) (quietEnv 60, sampleRequest)).1
      (rateLimitKey "10.0.0.1") = 100 ∧
    (limitStep (storeAfter [] slowBurst) (quietEnv 61, sampleRequest)).2 = false ∧
    (limitStep (storeAfter [] slowBurst) (quietEnv 118, sampleRequest)).2 = false ∧
    (limitStep (storeAfter [] slowBurst) (quietEnv 119, sampleRequest)).2 = true ∧
    (steadyTraffic.map (fun p => p.1.now)).getLast? = some 5900 ∧
    (steadyTraffic.filter (fun p => 5840 < p.1.now ∧ p.1.now ≤ 5900)).length = 2 ∧
    admittedAt [] steadyTraffic 100 = true ∧
    admittedAt [] steadyTraffic 101 = false := by
  decide!

/-! ## Priority of static routes -/

theorem matchPattern_length (P : List Seg) (segs : List String) (ps : List (String × String))
    (h : matchPattern P segs = some ps) : P.length = segs.length := by
  induction P generalizing segs ps with
  | nil =>
    cases segs with
    | nil => rfl
    | cons x xs => simp [matchPattern] at h
  | cons seg rest ih =>
    cases segs with
    | nil => cases seg <;> simp [matchPattern] at h
    | cons x xs =>
      cases seg with
      | static s =>
        simp only [matchPattern] at h
        split at h
        · simp [ih xs ps h]
        · cases h
      | param name =>
        simp only [matchPattern] at h
        split at h
        · cases h
        · simp only [Option.map_eq_some'] at h
          obtain ⟨ps0, hps0, _⟩ := h
          simp [ih xs ps0 hps0]

theorem staticFirst_trans (P Q R : List Seg)
    (h1 : staticFirst P Q = true) (h2 : staticFirst Q R = true) : staticFirst P R = true := by
  induction P generalizing Q R with
  | nil => cases Q <;> simp [staticFirst] at h1
  | cons p P ih =>
    cases Q with
    | nil => cases p <;> simp [staticFirst] at h1
    | cons q Q =>
      cases R with
      | nil => cases q <;> simp [staticFirst] at h2
      | cons r R =>
        cases p <;> cases q <;> cases r <;> simp only [staticFirst] at h1 h2 ⊢ <;>
          first
            | exact ih Q R h1 h2
            | contradiction

theorem staticFirst_negtrans (P Q R : List Seg) (hPQ : P.length = Q.length)
    (hQR : Q.length = R.length)
    (h1 : staticFirst P Q = false) (h2 : staticFirst Q R = false) :
    staticFirst P R = false := by
  induction P generalizing Q R with
  | nil => cases R <;> rfl
  | cons p P ih =>
    cases Q with
    | nil => cases hPQ
    | cons q Q =>
      cases R with
      | nil => cases hQR
      | cons r R =>
        simp only [List.length_cons, Nat.add_right_cancel_iff] at hPQ hQR
        cases p <;> cases q <;> cases r <;> simp only [staticFirst] at h1 h2 ⊢ <;>
          first
            | exact ih Q R hPQ hQR h1 h2
            | contradiction

/-- The candidate the lookup keeps is one no other candidate is reached
before. -/
theorem foldl_pickRoute_min (n : Nat) (l : List (RouteInfo × List (String × String)))
    (init : Option (RouteInfo × List (String × String)))
    (b : RouteInfo × List (String × String))
    (hl : ∀ c ∈ l, (parsePattern c.1.path).length = n)
    (hi : ∀ i0, init = some i0 → (parsePattern i0.1.path).length = n)
    (h : l.foldl pickRoute init = some b) :
    (∀ c ∈ l, staticFirst (parsePattern c.1.path) (parsePattern b.1.path) = false) ∧
    (∀ i0, init = some i0 →
      staticFirst (parsePattern i0.1.path) (parsePattern b.1.path) = false) ∧
    (parsePattern b.1.path).length = n := by
  induction l generalizing init with
  | nil =>
    simp only [List.foldl_nil] at h
    subst h
    refine ⟨by simp, ?_, hi b rfl⟩
    intro i0 hi0
    cases hi0
    cases hsf : staticFirst (parsePattern b.1.path) (parsePattern b.1.path) with
    | false => rfl
    | true =>
      exfalso
      have hirr : ∀ P : List Seg, staticFirst P P = false := by
        intro P
        induction P with
        | nil => rfl
        | cons p P ihP => cases p <;> simpa [staticFirst] using ihP
      rw [hirr] at hsf
      cases hsf
  | cons a rest ih =>
    have hla := hl a (List.mem_cons_self _ _)
    have hrest : ∀ c ∈ rest, (parsePattern c.1.path).length = n :=
      fun c hc => hl c (List.mem_cons_of_mem _ hc)
    simp only [List.foldl_cons] at h
    cases init with
    | none =>
      have hstep : pickRoute none a = some a := rfl
      rw [hstep] at h
      obtain ⟨h1, h2, h3⟩ := ih (some a) hrest (fun i0 hi0 => by cases hi0; exact hla) h
      refine ⟨?_, by simp, h3⟩
      intro c hc
      rcases List.mem_cons.1 hc with rfl | hc
      · exact h2 _ rfl
      · exact h1 c hc
    | some i0 =>
      have hli := hi i0 rfl
      cases hsf : staticFirst (parsePattern a.1.path) (parsePattern i0.1.path) with
      | true =>
        have hstep : pickRoute (some i0) a = some a := by simp [pickRoute, hsf]
        rw [hstep] at h
        obtain ⟨h1, h2, h3⟩ := ih (some a) hrest (fun j hj => by cases hj; exact hla) h
        refine ⟨?_, ?_, h3⟩
        · intro c hc
          rcases List.mem_cons.1 hc with rfl | hc
          · exact h2 _ rfl
          · exact h1 c hc
        · intro j hj
          cases hj
          cases hib : staticFirst (parsePattern i0.1.path) (parsePattern b.1.path) with
          | false => rfl
          | true =>
            have := staticFirst_trans _ _ _ hsf hib
            rw [h2 a rfl] at this
            cases this
      | false =>
        have hstep : pickRoute (some i0) a = some i0 := by simp [pickRoute, hsf]
        rw [hstep] at h
        obtain ⟨h1, h2, h3⟩ := ih (some i0) hrest (fun j hj => by cases hj; exact hli) h
        refine ⟨?_, ?_, h3⟩
        · intro c hc
          rcases List.mem_cons.1 hc with rfl | hc
          · exact staticFirst_negtrans _ _ _ (by rw [hla, hli]) (by rw [hli, h3]) hsf
              (h2 i0 rfl)
          · exact h1 c hc
        · intro j hj
          cases hj
          exact h2 i0 rfl

/-- The selected route is one that no other matching route of the method is
reached before. -/
theorem getValue_minimal (e : Engine) (httpMethod path : String) (sel : RouteInfo)
    (ps : List (String × String)) (h : e.getValue httpMethod path = some (sel, ps))
    (r : RouteInfo) (hr : r ∈ e.routes) (hm : r.method = httpMethod)
    (hmatch : (matchPattern (parsePattern r.path) (segments path)).isSome = true) :
    staticFirst (parsePattern r.path) (parsePattern sel.path) = false := by
  have hlen : ∀ c ∈ matchingRoutes e.routes httpMethod (segments path),
      (parsePattern c.1.path).length = (segments path).length := by
    intro c hc
    simp only [matchingRoutes, List.mem_filterMap] at hc
    obtain ⟨r0, _, hsome⟩ := hc
    split at hsome
    · simp only [Option.map_eq_some'] at hsome
      obtain ⟨ps0, hps0, rfl⟩ := hsome
      exact matchPattern_length _ _ _ hps0
    · cases hsome
  obtain ⟨hmin, _, _⟩ := foldl_pickRoute_min _ _ none (sel, ps) hlen (by simp) h
  obtain ⟨ps', hps'⟩ := Option.isSome_iff_exists.1 hmatch
  have hc : (r, ps') ∈ matchingRoutes e.routes httpMethod (segments path) := by
    simp only [matchingRoutes, List.mem_filterMap]
    exact ⟨r, hr, by simp [hm, hps']⟩
  exact hmin (r, ps') hc

theorem overlap_of_match (P Q : List Seg) (segs : List String)
    (hP : (matchPattern P segs).isSome = true) (hQ : (matchPattern Q segs).isSome = true) :
    overlap P Q = true := by
  induction P generalizing Q segs with
  | nil =>
    cases segs with
    | nil => cases Q with
      | nil => rfl
      | cons q Q => cases q <;> simp [matchPattern] at hQ
    | cons x xs => simp [matchPattern] at hP
  | cons p P ih =>
    cases segs with
    | nil => cases p <;> simp [matchPattern] at hP
    | cons x xs =>
      cases Q with
      | nil => simp [matchPattern] at hQ
      | cons q Q =>
        have hP' : (matchPattern P xs).isSome = true := by
          cases p <;> simp only [matchPattern] at hP <;> split at hP <;>
            first
              | exact hP
              | (simp at hP; done)
              | (simpa using hP)
        have hQ' : (matchPattern Q xs).isSome = true := by
          cases q <;> simp only [matchPattern] at hQ <;> split at hQ <;>
            first
              | exact hQ
              | (simp at hQ; done)
              | (simpa using hQ)
        have hrec := ih Q xs hP' hQ'
        cases p with
        | static a =>
          cases q with
          | static b =>
            have ha : a = x := by
              simp only [matchPattern] at hP
              split at hP
              · assumption
              · simp at hP
            have hb : b = x := by
              simp only [matchPattern] at hQ
              split at hQ
              · assumption
              · simp at hQ
            simp [overlap, ha, hb, hrec]
          | param nb => simpa [overlap] using hrec
        | param na => cases q <;> simpa [overlap] using hrec

/-- On the table of SetupRoutes two different routes of one method whose
patterns can match a common path are always a static route and a parameter
route, and the one the lookup reaches first has more static segments. -/
theorem SetupRoutes_overlaps :
    ∀ r1 ∈ SetupRoutes.routes, ∀ r2 ∈ SetupRoutes.routes, r1.method = r2.method →
      overlap (parsePattern r1.path) (parsePattern r2.path) = true →
      r1 = r2 ∨
      (staticFirst (parsePattern r1.path) (parsePattern r2.path) = true ∧
        staticCount (parsePattern r2.path) < staticCount (parsePattern r1.path)) ∨
      (staticFirst (parsePattern r2.path) (parsePattern r1.path) = true ∧
        staticCount (parsePattern r1.path) < staticCount (parsePattern r2.path)) := by
  decide!

/-- In every table that holds the routes of SetupRoutes in some order, a path
that only the routes `a` and `b` of its method match selects `a` when `a` is
reached before `b`. -/
theorem getValue_of_perm (e : Engine) (hperm : e.routes.Perm SetupRoutes.routes)
    (httpMethod path : String) (a b : RouteInfo)
    (ha : a ∈ SetupRoutes.routes) (ham : a.method = httpMethod)
    (hmatch : matchPattern (parsePattern a.path) (segments path) = some [])
    (honly : ∀ r ∈ SetupRoutes.routes, r.method = httpMethod →
      (matchPattern (parsePattern r.path) (segments path)).isSome = true → r = a ∨ r = b)
    (hpref : staticFirst (parsePattern a.path) (parsePattern b.path) = true) :
    e.getValue httpMethod path = some (a, []) := by
  have hae : a ∈ e.routes := hperm.mem_iff.2 ha
  have hsome := getValue_complete e httpMethod path a [] hae ham hmatch
  obtain ⟨⟨sel, ps⟩, hget⟩ := Option.isSome_iff_exists.1 hsome
  obtain ⟨hsel, hmeth, hm⟩ := getValue_sound _ _ _ _ _ hget
  have hmin := getValue_minimal e httpMethod path sel ps hget a hae ham (by rw [hmatch]; rfl)
  rcases honly sel (hperm.mem_iff.1 hsel) hmeth (by rw [hm]; rfl) with h | h
  · subst h
    rw [hmatch] at hm
    cases hm
    exact hget
  · subst h
    rw [hpref] at hmin
    cases hmin

/-- C13: on the route table of SetupRoutes, whenever a second registered
pattern of the method matches the request path as well, the selected
pattern has more static segments than it (two different matching patterns
never have equally many, so the tie-break by registration order decides
nothing); GET on the three search paths selects the static search routes,
and does so in every order of registration. -/
theorem getValue_prefers_static :
    (∀ (httpMethod path : String) (sel : RouteInfo) (ps : List (String × String)),
      SetupRoutes.getValue httpMethod path = some (sel, ps) →
      ∀ r ∈ SetupRoutes.routes, r.method = httpMethod →
        (matchPattern (parsePattern r.path) (segments path)).isSome = true →
        staticCount (parsePattern r.path) < staticCount (parsePattern sel.path) ∨
        (staticCount (parsePattern r.path) = staticCount (parsePattern sel.path) ∧
          SetupRoutes.routes.indexOf sel ≤ SetupRoutes.routes.indexOf r)) ∧
    (∀ e : Engine, e.routes.Perm SetupRoutes.routes →
      e.getValue "GET" "/api/v1/properties/search" =
        some (searchRoute "properties" .handleSearchProperties, []) ∧
      e.getValue "GET" "/api/v1/tenants/search" =
        some (searchRoute "tenants" .handleSearchTenants, []) ∧
      e.getValue "GET" "/api/v1/caretakers/search" =
        some (searchRoute "caretakers" .handleSearchCaretakers, [])) ∧
    (matchPattern (parsePattern (idRoute "properties" .handleGetProperty).path)
        (segments "/api/v1/properties/search")).isSome = true ∧
    (matchPattern (parsePattern (idRoute "tenants" .handleGetTenant).path)
        (segments "/api/v1/tenants/search")).isSome = true ∧
    (matchPattern (parsePattern (idRoute "caretakers" .handleGetCaretaker).path)
        (segments "/api/v1/caretakers/search")).isSome = true := by
  refine ⟨?_, ?_, by decide, by decide, by decide⟩
  · intro httpMethod path sel ps hget r hr hm hmatch
    obtain ⟨hsel, hmeth, hmsel⟩ := getValue_sound _ _ _ _ _ hget
    have hmin := getValue_minimal SetupRoutes httpMethod path sel ps hget r hr hm hmatch
    have hov := overlap_of_match _ _ _ hmatch (by rw [hmsel]; rfl)
    rcases SetupRoutes_overlaps r hr sel hsel (by rw [hm, hmeth]) hov with h | h | h
    · subst h
      exact Or.inr ⟨rfl, le_refl _⟩
    · rw [h.1] at hmin
      cases hmin
    · exact Or.inl h.2
  · intro e hperm
    refine ⟨?_, ?_, ?_⟩
    · exact getValue_of_perm e hperm _ _ _ (idRoute "properties" .handleGetProperty)
        (by decide) rfl (by decide) (by decide!) (by decide)
    · exact getValue_of_perm e hperm _ _ _ (idRoute "tenants" .handleGetTenant)
        (by decide) rfl (by decide) (by decide!) (by decide)
    · exact getValue_of_perm e hperm _ _ _ (idRoute "caretakers" .handleGetCaretaker)
        (by decide) rfl (by decide) (by decide!) (by decide)

theorem getValue_prefers_static_witness :
    (staticCount (parsePattern (idRoute "properties" .handleGetProperty).path) <
        staticCount (parsePattern (searchRoute "properties" .handleSearchProperties).path) ∨
      (staticCount (parsePattern (idRoute "properties" .handleGetProperty).path) =
          staticCount (parsePattern (searchRoute "properties" .handleSearchProperties).path) ∧
        SetupRoutes.routes.indexOf (searchRoute "properties" .handleSearchProperties) ≤
          SetupRoutes.routes.indexOf (idRoute "properties" .handleGetProperty))) ∧
    reversedRouter.getValue "GET" "/api/v1/properties/search" =
      some (searchRoute "properties" .handleSearchProperties, []) :=
  ⟨getValue_prefers_static.1 "GET" "/api/v1/properties/search"
      (searchRoute "properties" .handleSearchProperties) [] (by decide)
      (idRoute "properties" .handleGetProperty) (by decide) rfl (by decide),
   (getValue_prefers_static.2.1 reversedRouter (List.reverse_perm _)).1⟩

/-! ## Service names -/

theorem GetClient_of_mem (cfg : Config) (serviceName : String)
    (h : serviceName ∈ serviceNames) :
    ((NewManager cfg).GetClient serviceName).isSome = true := by
  simp only [serviceNames, List.mem_cons, List.mem_singleton, List.not_mem_nil, or_false] at h
  rcases h with rfl | rfl | rfl | rfl | rfl | rfl | rfl | rfl | rfl <;> rfl

theorem target_mem_serviceNames (h : Handler) (param : String → String)
    (serviceName path : String) (ht : h.target param = some (serviceName, path)) :
    serviceName ∈ serviceNames := by
  cases h <;> simp only [Handler.target] at ht <;>
    first
      | (cases ht; decide)
      | cases ht

/-- C14: the clients map built by NewManager has exactly the nine names that
getServiceConfig handles, every service name a handler passes to
proxyToService is one of them, so for every handler of every registered
route GetClient returns a client and proxyToService goes on to ProxyRequest:
its 500 "Service unavailable" branch is not taken. -/
theorem services_resolvable (cfg : Config) :
    (NewManager cfg).clients.map Prod.fst = serviceNames ∧
    (∀ serviceName, ((NewManager cfg).getServiceConfig serviceName).isSome = true ↔
      serviceName ∈ serviceNames) ∧
    (∀ (h : Handler) (param : String → String) (serviceName path : String),
      h.target param = some (serviceName, path) → serviceName ∈ serviceNames) ∧
    (∀ r ∈ SetupRoutes.routes, ∀ h ∈ r.handlers,
      ∀ (env : Env) (c : Context) (serviceName path : String),
        h.target c.Param = some (serviceName, path) →
        ∃ client, (NewGateway cfg).clients.GetClient serviceName = some client ∧
          (NewGateway cfg).proxyToService env c serviceName path =
            client.ProxyRequest env serviceName (c.log (.proxyToService serviceName path))
              path) := by
  refine ⟨rfl, ?_, target_mem_serviceNames, ?_⟩
  · intro serviceName
    constructor
    · intro h
      by_contra hn
      simp only [serviceNames, List.mem_cons, List.mem_singleton, List.not_mem_nil, or_false,
        not_or] at hn
      obtain ⟨h1, h2, h3, h4, h5, h6, h7, h8, h9⟩ := hn
      simp [Manager.getServiceConfig, h1, h2, h3, h4, h5, h6, h7, h8, h9] at h
    · intro h
      simp only [serviceNames, List.mem_cons, List.mem_singleton, List.not_mem_nil,
        or_false] at h
      rcases h with rfl | rfl | rfl | rfl | rfl | rfl | rfl | rfl | rfl <;> rfl
  · intro r _ h _ env c serviceName path ht
    have hmem := target_mem_serviceNames h c.Param serviceName path ht
    obtain ⟨client, hclient⟩ := Option.isSome_iff_exists.1 (GetClient_of_mem cfg serviceName hmem)
    refine ⟨client, hclient, ?_⟩
    have hc : (NewGateway cfg).clients.GetClient serviceName = some client := hclient
    simp only [Gateway.proxyToService, hc]

theorem services_resolvable_witness :
    "user-service" ∈ serviceNames ∧
    ∃ client, (NewGateway sampleConfig).clients.GetClient "user-service" = some client ∧
      (NewGateway sampleConfig).proxyToService (quietEnv 0) (newContext sampleRequest [])
          "user-service" "/api/v1/users" =
        client.ProxyRequest (quietEnv 0) "user-service"
          ((newContext sampleRequest []).log (.proxyToService "user-service" "/api/v1/users"))
          "/api/v1/users" :=
  ⟨(services_resolvable sampleConfig).2.2.1 .handleGetUsers (fun _ => "") "user-service"
      "/api/v1/users" rfl,
   (services_resolvable sampleConfig).2.2.2
      { method := "GET", path := "/api/v1/users",
        handlers := [.Recovery, .Logger, .CORS, .RateLimit, .Metrics, .JWTAuth,
          .handleGetUsers] }
      (by decide) .handleGetUsers (by decide) (quietEnv 0) (newContext sampleRequest [])
      "user-service" "/api/v1/users" rfl⟩

/-! ## Registrations at startup -/

/-- C15: the registrations of SetupRoutes are free of duplicates, and among
them is GET /health with the handler Health; main then registers GET
/metrics, which is accepted, and GET /health, whose method and path are
already in the table: the router refuses it with a panic for the path
"/health". -/
theorem main_registers_health_twice :
    (SetupRoutes.routes.map RouteInfo.key).Nodup ∧
    SetupRoutes.panicked = none ∧
    (SetupRoutes.routes.filter (fun r => r.method = "GET" ∧ r.path = "/health")).map
        (fun r => r.handlers.getLast?) = [some Handler.Health] ∧
    (SetupRoutes.RouterGroup.GET "/metrics" .promhttpHandler SetupRoutes).panicked = none ∧
    ("GET", joinPaths SetupRoutes.RouterGroup.basePath "/health") ∈
      SetupRoutes.routes.map RouteInfo.key ∧
    mainRouter.panicked = some "/health" ∧
    mainRouter.routes.map RouteInfo.key =
      SetupRoutes.routes.map RouteInfo.key ++ [("GET", "/metrics")] := by
  decide!

end Baribhara
